import Mathlib

/-!
Verification development for the VOR/FIX calculation repository.

The geodesy library (geographiclib) is modelled as an abstract oracle with a
Direct (forward) and an Inverse operation, as the spec prescribes.  All numeric
code is embedded over the rationals; Python float-`%` is modelled by `pymod`
(result carries the sign of the divisor) and Python `int()` truncation by
`pyInt`.  Definitions follow the source files `vor_fix_calculation.py`,
`core_vor_calc.py` and the earlier revision in `unnamed/part_000`; the suffix
`_v0` marks the earlier revision's variant of a function.
-/

set_option maxRecDepth 20000

namespace VorFix

/-- Result of the geodesy oracle's Inverse operation: geodesic distance in
meters (`s12`) and initial azimuth in degrees (`azi1`), the two fields the
source reads from `GEODESIC.Inverse`. -/
structure InverseResult where
  s12 : ℚ
  azi1 : ℚ

/-- The geodesy oracle (`GEODESIC = Geodesic.WGS84` in the source).
`direct lat1 lon1 azi s` returns the destination `(lat2, lon2)`;
`inverse lat1 lon1 lat2 lon2` returns distance and initial azimuth. -/
structure Oracle where
  direct : ℚ → ℚ → ℚ → ℚ → ℚ × ℚ
  inverse : ℚ → ℚ → ℚ → ℚ → InverseResult

/-- `METERS_PER_NM = 1852.0` -/
def METERS_PER_NM : ℚ := 1852

/-- `MAX_ITERATIONS = 200` -/
def MAX_ITERATIONS : ℕ := 200

/-- `DISTANCE_TOLERANCE_M = 1.0` -/
def DISTANCE_TOLERANCE_M : ℚ := 1

def nm_to_meters (nm : ℚ) : ℚ := nm * METERS_PER_NM

def meters_to_nm (meters : ℚ) : ℚ := meters / METERS_PER_NM

/-- Python `x % y` for floats: the result has the sign of the divisor;
for `y > 0` this is `x - y*floor(x/y)`. -/
def pymod (x y : ℚ) : ℚ := x - y * ⌊x / y⌋

/-- Python `int()` truncation toward zero. -/
def pyInt (x : ℚ) : ℤ := if 0 ≤ x then ⌊x⌋ else -⌊-x⌋

/-- Geographic coordinates (the `Coordinates` dataclass), fields only; the
constructor validation of each revision is `mkCoordinates` /
`mkCoordinatesCore` below. -/
structure Coordinates where
  lat : ℚ
  lon : ℚ
deriving DecidableEq

/-- Constructing `Coordinates` in `vor_fix_calculation.py`: `__post_init__`
raises unless `-90 <= lat <= 90` and `-180 < lon <= 180`; modelled as an
`Option` that is `none` when validation raises. -/
def mkCoordinates (lat lon : ℚ) : Option Coordinates :=
  if -90 ≤ lat ∧ lat ≤ 90 then
    if -180 < lon ∧ lon ≤ 180 then some ⟨lat, lon⟩ else none
  else none

/-- Constructing `Coordinates` in `core_vor_calc.py`: same, but the longitude
check is the closed interval `-180 <= lon <= 180`. -/
def mkCoordinatesCore (lat lon : ℚ) : Option Coordinates :=
  if -90 ≤ lat ∧ lat ≤ 90 then
    if -180 ≤ lon ∧ lon ≤ 180 then some ⟨lat, lon⟩ else none
  else none

/-! ## Designator encoder (`get_radius_letter`) -/

/-- The bucket table of `get_radius_letter` in `vor_fix_calculation.py`:
`(0.1,1.5,'A'), (1.5,2.5,'B'), ..., (25.5,26.5,'Z')`. -/
def radius_ranges : List (ℚ × ℚ × Char) :=
  [(1/10, 3/2, 'A'), (3/2, 5/2, 'B'), (5/2, 7/2, 'C'), (7/2, 9/2, 'D'),
   (9/2, 11/2, 'E'), (11/2, 13/2, 'F'), (13/2, 15/2, 'G'), (15/2, 17/2, 'H'),
   (17/2, 19/2, 'I'), (19/2, 21/2, 'J'), (21/2, 23/2, 'K'), (23/2, 25/2, 'L'),
   (25/2, 27/2, 'M'), (27/2, 29/2, 'N'), (29/2, 31/2, 'O'), (31/2, 33/2, 'P'),
   (33/2, 35/2, 'Q'), (35/2, 37/2, 'R'), (37/2, 39/2, 'S'), (39/2, 41/2, 'T'),
   (41/2, 43/2, 'U'), (43/2, 45/2, 'V'), (45/2, 47/2, 'W'), (47/2, 49/2, 'X'),
   (49/2, 51/2, 'Y'), (51/2, 53/2, 'Z')]

/-- The `for low, high, letter in ranges: if low <= distance_nm < high` scan. -/
def scanRanges (distance_nm : ℚ) : List (ℚ × ℚ × Char) → Option Char
  | [] => none
  | r :: rest =>
    if r.1 ≤ distance_nm ∧ distance_nm < r.2.1 then some r.2.2
    else scanRanges distance_nm rest

/-- `get_radius_letter` of `vor_fix_calculation.py`: scan the half-open
buckets; distances below `0.1` fall back to `A`, all other misses to `Z`. -/
def get_radius_letter (distance_nm : ℚ) : Char :=
  match scanRanges distance_nm radius_ranges with
  | some letter => letter
  | none => if distance_nm < 1/10 then 'A' else 'Z'

/-- The bucket table of the earlier revision (`unnamed/part_000`):
`(0.1,1.4,'A'), (1.5,2.4,'B'), ..., (25.5,26.4,'Z')`, used with a closed
upper bound. -/
def radius_ranges_v0 : List (ℚ × ℚ × Char) :=
  [(1/10, 7/5, 'A'), (3/2, 12/5, 'B'), (5/2, 17/5, 'C'), (7/2, 22/5, 'D'),
   (9/2, 27/5, 'E'), (11/2, 32/5, 'F'), (13/2, 37/5, 'G'), (15/2, 42/5, 'H'),
   (17/2, 47/5, 'I'), (19/2, 52/5, 'J'), (21/2, 57/5, 'K'), (23/2, 62/5, 'L'),
   (25/2, 67/5, 'M'), (27/2, 72/5, 'N'), (29/2, 77/5, 'O'), (31/2, 82/5, 'P'),
   (33/2, 87/5, 'Q'), (35/2, 92/5, 'R'), (37/2, 97/5, 'S'), (39/2, 102/5, 'T'),
   (41/2, 107/5, 'U'), (43/2, 112/5, 'V'), (45/2, 117/5, 'W'), (47/2, 122/5, 'X'),
   (49/2, 127/5, 'Y'), (51/2, 132/5, 'Z')]

/-- The scan of the earlier revision: `if low <= distance_nm <= high`. -/
def scanRangesClosed (distance_nm : ℚ) : List (ℚ × ℚ × Char) → Option Char
  | [] => none
  | r :: rest =>
    if r.1 ≤ distance_nm ∧ distance_nm ≤ r.2.1 then some r.2.2
    else scanRangesClosed distance_nm rest

/-- `get_radius_letter` of the earlier revision: closed buckets, and every
miss falls back to `Z`. -/
def get_radius_letter_v0 (distance_nm : ℚ) : Char :=
  match scanRangesClosed distance_nm radius_ranges_v0 with
  | some letter => letter
  | none => 'Z'

/-! ## Accuracy validator (`core_vor_calc.py`) -/

/-- The dictionary returned by `validate_calculation_accuracy`. -/
structure AccuracyReport where
  distance_error_nm : ℚ
  distance_error_m : ℚ
  azimuth_error_deg : ℚ
  actual_distance_nm : ℚ
  actual_azimuth_deg : ℚ
  accuracy_rating : String
deriving DecidableEq

/-- `_calculate_accuracy_rating`: tiered rating from the two errors. -/
def calculate_accuracy_rating (distance_error_m azimuth_error_deg : ℚ) : String :=
  if distance_error_m ≤ 1 ∧ azimuth_error_deg ≤ 1/1000 then "EXCELLENT"
  else if distance_error_m ≤ 5 ∧ azimuth_error_deg ≤ 1/100 then "VERY_GOOD"
  else if distance_error_m ≤ 10 ∧ azimuth_error_deg ≤ 1/10 then "GOOD"
  else if distance_error_m ≤ 50 ∧ azimuth_error_deg ≤ 1 then "ACCEPTABLE"
  else "POOR"

/-- `validate_calculation_accuracy`: one oracle inverse call; azimuths
normalized by `% 360`; azimuth error is the shortest angular distance
`min(|diff|, 360 - |diff|)`. -/
def validate_calculation_accuracy (o : Oracle) (start_coords end_coords : Coordinates)
    (expected_azimuth expected_distance_nm : ℚ) : AccuracyReport :=
  let result := o.inverse start_coords.lat start_coords.lon end_coords.lat end_coords.lon
  let actual_distance_m := result.s12
  let actual_distance_nm := meters_to_nm actual_distance_m
  let actual_azimuth := pymod result.azi1 360
  let expected_azimuth_n := pymod expected_azimuth 360
  let azimuth_diff := min |actual_azimuth - expected_azimuth_n| (360 - |actual_azimuth - expected_azimuth_n|)
  let distance_error_nm := |actual_distance_nm - expected_distance_nm|
  let distance_error_m := |actual_distance_m - nm_to_meters expected_distance_nm|
  { distance_error_nm := distance_error_nm
    distance_error_m := distance_error_m
    azimuth_error_deg := azimuth_diff
    actual_distance_nm := actual_distance_nm
    actual_azimuth_deg := actual_azimuth
    accuracy_rating := calculate_accuracy_rating distance_error_m azimuth_diff }

/-- The dictionary returned by `calculate_precision_metrics`. -/
structure PrecisionMetrics where
  mean_distance_error_m : ℚ
  max_distance_error_m : ℚ
  min_distance_error_m : ℚ
  mean_azimuth_error_deg : ℚ
  max_azimuth_error_deg : ℚ
  min_azimuth_error_deg : ℚ
  total_calculations : ℕ
deriving DecidableEq

/-- Python `max` over a nonempty list (head as the initial accumulator);
the `[]` case is unreachable in the source and returns `0` here. -/
def listMax : List ℚ → ℚ
  | [] => 0
  | x :: xs => xs.foldl max x

/-- Python `min` over a nonempty list. -/
def listMin : List ℚ → ℚ
  | [] => 0
  | x :: xs => xs.foldl min x

/-- `calculate_precision_metrics`: an empty batch returns the all-zero
dictionary; otherwise mean/max/min of the distance and azimuth errors of
each validated tuple. -/
def calculate_precision_metrics (o : Oracle)
    (calculations : List (Coordinates × Coordinates × ℚ × ℚ)) : PrecisionMetrics :=
  match calculations with
  | [] => ⟨0, 0, 0, 0, 0, 0, 0⟩
  | c :: cs =>
    let distance_errors := (c :: cs).map fun x =>
      (validate_calculation_accuracy o x.1 x.2.1 x.2.2.1 x.2.2.2).distance_error_m
    let azimuth_errors := (c :: cs).map fun x =>
      (validate_calculation_accuracy o x.1 x.2.1 x.2.2.1 x.2.2.2).azimuth_error_deg
    { mean_distance_error_m := distance_errors.sum / distance_errors.length
      max_distance_error_m := listMax distance_errors
      min_distance_error_m := listMin distance_errors
      mean_azimuth_error_deg := azimuth_errors.sum / azimuth_errors.length
      max_azimuth_error_deg := listMax azimuth_errors
      min_azimuth_error_deg := listMin azimuth_errors
      total_calculations := (c :: cs).length }

/-! ## Coordinate projector (`calculate_target_coords_geodesic`) -/

/-- The multi-step walk: `num_steps` consecutive forward calls of
`step_distance` each, each destination becoming the next origin with the
same constant bearing. -/
def multiStepWalk (o : Oracle) (azimuth step_distance : ℚ) : ℕ → Coordinates → Coordinates
  | 0, p => p
  | n + 1, p =>
    multiStepWalk o azimuth step_distance n
      ⟨(o.direct p.lat p.lon azimuth step_distance).1,
       (o.direct p.lat p.lon azimuth step_distance).2⟩

/-- `calculate_target_coords_geodesic` of `vor_fix_calculation.py`: one
forward call, one verifying inverse call; if the verified error exceeds
`0.1` m and `num_steps = max(1, int(distance_nm / 500))` exceeds `1`, walk
`num_steps` forward steps of `distance_m / num_steps` each; otherwise the
single-step point.  The second component counts the forward (Direct) oracle
calls made: `1` on the single-step path, `1 + num_steps` on the multi-step
path.  The oracle is assumed to return in-range coordinates (spec section 2),
so the `Coordinates(...)` re-validation at each construction is the identity. -/
def calculate_target_coords_geodesic (o : Oracle) (start_coords : Coordinates)
    (azimuth distance_nm : ℚ) : Coordinates × ℕ :=
  let distance_m := nm_to_meters distance_nm
  let result := o.direct start_coords.lat start_coords.lon azimuth distance_m
  let verification := o.inverse start_coords.lat start_coords.lon result.1 result.2
  let actual_distance_m := verification.s12
  let distance_error_m := |actual_distance_m - distance_m|
  if distance_error_m > 1/10 then
    let num_steps : ℤ := max 1 (pyInt (distance_nm / 500))
    if num_steps > 1 then
      (multiStepWalk o azimuth (distance_m / (num_steps : ℚ)) num_steps.toNat
        ⟨start_coords.lat, start_coords.lon⟩, 1 + num_steps.toNat)
    else (⟨result.1, result.2⟩, 1)
  else (⟨result.1, result.2⟩, 1)

/-- The projector as the amended claim words it: the distance is converted
exactly as `distance_nm * 1852.0`; the single-step point is returned (after
one forward and one inverse call) when the verified error is at most `0.1` m
OR `num_steps = max(1, int(distance_nm / 500))` equals `1`; only otherwise
does it subdivide into `num_steps` equal forward steps and return the final
point. -/
def projectSpec (o : Oracle) (start_coords : Coordinates)
    (azimuth distance_nm : ℚ) : Coordinates × ℕ :=
  let distance_m := distance_nm * 1852
  let p := o.direct start_coords.lat start_coords.lon azimuth distance_m
  let err := |(o.inverse start_coords.lat start_coords.lon p.1 p.2).s12 - distance_m|
  let num_steps : ℤ := max 1 (pyInt (distance_nm / 500))
  if err ≤ 1/10 ∨ num_steps = 1 then (⟨p.1, p.2⟩, 1)
  else
    (multiStepWalk o azimuth (distance_m / (num_steps : ℚ)) num_steps.toNat
      ⟨start_coords.lat, start_coords.lon⟩, 1 + num_steps.toNat)

/-! ## Radial/distance intersection solver, current revision
(`_find_radial_distance_intersection` of `vor_fix_calculation.py`) -/

/-- One evaluation of the solver's objective: project the test point at
`test_dist` NM along the radial and measure its oracle distance (meters) to
the DME. -/
structure Eval where
  point : Coordinates
  t2dm : ℚ

def evalAt (o : Oracle) (fix_coords : Coordinates) (true_bearing : ℚ)
    (dme_coords : Coordinates) (test_dist : ℚ) : Eval :=
  let tp := o.direct fix_coords.lat fix_coords.lon true_bearing (nm_to_meters test_dist)
  ⟨⟨tp.1, tp.2⟩, (o.inverse tp.1 tp.2 dme_coords.lat dme_coords.lon).s12⟩

/-- `error_m < best_approx_distance`, with `none` modelling the initial
`float('inf')`. -/
def improves (error_m : ℚ) : Option ℚ → Bool
  | none => true
  | some b => decide (error_m < b)

/-- Search-range initialization of `_find_radial_distance_intersection`,
including the `min_dist >= max_dist` fallback. -/
def searchRange (fix_dme_distance_nm distance_nm : ℚ) : ℚ × ℚ :=
  let p :=
    if distance_nm < 1/20 then ((0 : ℚ), (1/5 : ℚ))
    else if distance_nm < 1/2 then (0, max 1 (distance_nm * 2))
    else (max 0 (fix_dme_distance_nm - distance_nm - 1), fix_dme_distance_nm + distance_nm + 1)
  if p.1 ≥ p.2 then (0, max 1 (distance_nm * 2)) else p

/-- The search-range policy as the claim words it. -/
def searchRangeSpec (originToReferenceNM targetDistanceNM : ℚ) : ℚ × ℚ :=
  let p :=
    if targetDistanceNM < 1/20 then ((0 : ℚ), (1/5 : ℚ))
    else if 1/20 ≤ targetDistanceNM ∧ targetDistanceNM < 1/2 then
      (0, max 1 (2 * targetDistanceNM))
    else
      (max 0 (originToReferenceNM - targetDistanceNM - 1),
       originToReferenceNM + targetDistanceNM + 1)
  if p.1 ≥ p.2 then (0, max 1 (2 * targetDistanceNM)) else p

/-- Search-range initialization of the earlier revision
(`find_radial_distance_intersection` in `unnamed/part_000`), which has no
degenerate-bounds fallback. -/
def searchRange_v0 (fix_dme_distance_nm distance_nm : ℚ) : ℚ × ℚ :=
  if distance_nm < 1/20 then (0, 1/5)
  else if distance_nm < 1/2 then (0, max 1 (distance_nm * 2))
  else (max 0 (fix_dme_distance_nm - distance_nm - 1), fix_dme_distance_nm + distance_nm + 1)

/-- Result of the current revision's bisection loop: the returned point
(`best_approx_point`), the best error seen (`none` models the initial
`float('inf')`), the number of iterations executed, and the list of the
errors of every internally evaluated point, in evaluation order. -/
structure SolveResult where
  point : Coordinates
  best_err : Option ℚ
  iters : ℕ
  errs : List ℚ

/-- The `for iteration in range(MAX_ITERATIONS)` bisection loop of
`_find_radial_distance_intersection`: evaluate the midpoint, track the best
point, stop on `error_m < DISTANCE_TOLERANCE_M`, bisect by the sign of
`test_to_dme_m - distance_m`, stop when the bracket width drops below
`0.000001` NM. -/
def solverLoop (o : Oracle) (fix_coords : Coordinates) (true_bearing : ℚ)
    (dme_coords : Coordinates) (distance_m : ℚ) :
    ℕ → ℚ → ℚ → Option ℚ → Coordinates → SolveResult
  | 0, _, _, be, bp => ⟨bp, be, 0, []⟩
  | n + 1, min_dist, max_dist, be, bp =>
    let test_dist := (min_dist + max_dist) / 2
    let ev := evalAt o fix_coords true_bearing dme_coords test_dist
    let error_m := |ev.t2dm - distance_m|
    let be2 := if improves error_m be then some error_m else be
    let bp2 := if improves error_m be then ev.point else bp
    if error_m < DISTANCE_TOLERANCE_M then ⟨bp2, be2, 1, [error_m]⟩
    else
      let min2 := if ev.t2dm > distance_m then min_dist else test_dist
      let max2 := if ev.t2dm > distance_m then test_dist else max_dist
      if max2 - min2 < 1/1000000 then ⟨bp2, be2, 1, [error_m]⟩
      else
        let r := solverLoop o fix_coords true_bearing dme_coords distance_m n min2 max2 be2 bp2
        ⟨r.point, r.best_err, r.iters + 1, error_m :: r.errs⟩

/-- `_find_radial_distance_intersection` (current revision): precompute the
FIX-DME geodesic distance, initialize the bracket, run the loop for
`MAX_ITERATIONS` with the best point seeded at the FIX coordinates, and
return the best approximation. -/
def find_radial_distance_intersection (o : Oracle) (fix_coords : Coordinates)
    (true_bearing : ℚ) (dme_coords : Coordinates) (distance_nm : ℚ) : SolveResult :=
  let distance_m := nm_to_meters distance_nm
  let fix_dme_distance_nm :=
    meters_to_nm (o.inverse fix_coords.lat fix_coords.lon dme_coords.lat dme_coords.lon).s12
  let sr := searchRange fix_dme_distance_nm distance_nm
  solverLoop o fix_coords true_bearing dme_coords distance_m MAX_ITERATIONS sr.1 sr.2
    none fix_coords

/-! ## Radial/distance intersection solver, earlier revision
(`find_radial_distance_intersection` of `unnamed/part_000`), with the
stagnation-triggered secant correction. -/

/-- `abs(prev_error - error_m) < DISTANCE_TOLERANCE_M / 10`, with `none`
modelling the initial `float('inf')` (for which the difference is infinite
and the test is false). -/
def stagnant (prev_error : Option ℚ) (error_m : ℚ) : Bool :=
  match prev_error with
  | none => false
  | some p => decide (|p - error_m| < DISTANCE_TOLERANCE_M / 10)

/-- Bracket adjustment after a stagnation correction at `test_dist`: narrow
toward `test_dist` when it lies strictly inside `(min_dist, max_dist)`, the
side chosen by the sign of the midpoint's `test_to_dme_m - distance_m`
(the variable `test_to_dme_m` is not reassigned by the secant evaluation);
otherwise `min_dist = (min_dist + max_dist) / 3` followed sequentially by
`max_dist = 2 * (min_dist + max_dist) / 3` with the already-updated
`min_dist`. -/
def stagnationBounds (min_dist max_dist test_dist test_to_dme_m distance_m : ℚ) : ℚ × ℚ :=
  if min_dist < test_dist ∧ test_dist < max_dist then
    if test_to_dme_m > distance_m then (min_dist, test_dist) else (test_dist, max_dist)
  else
    ((min_dist + max_dist) / 3, 2 * ((min_dist + max_dist) / 3 + max_dist) / 3)

/-- The same bracket adjustment as the amended claim words it: narrow toward
the corrected point when it lies strictly inside the bracket; otherwise
reassign `min` to `(min + max) / 3` and then `max` to `2 * (min' + max) / 3`
using the new `min'`. -/
def stagnationBoundsSpec (min_dist max_dist corrected test_to_dme_m distance_m : ℚ) : ℚ × ℚ :=
  if min_dist < corrected ∧ corrected < max_dist then
    if test_to_dme_m > distance_m then (min_dist, corrected) else (corrected, max_dist)
  else
    let m := (min_dist + max_dist) / 3
    (m, 2 * (m + max_dist) / 3)

/-- Result of the earlier revision's loop: the returned point
(`best_approx_point`), the best error seen (`best_approx_distance`, with
`none` modelling the initial `float('inf')`), for each iteration that
reached the stagnation check the pair `(stagnation counter after this
iteration's update, whether the stagnation correction fired this
iteration)`, the number of iterations executed, the absolute errors of
every point evaluated through the oracle (midpoints, the two bracket
endpoint probes of a firing stagnation branch, and secant points), and the
subset of those errors that the code compares against
`best_approx_distance` (midpoints and secant points only — the endpoint
probes are evaluated but never fed into best-point tracking). -/
structure P0Result where
  point : Coordinates
  best_err : Option ℚ
  trace : List (ℕ × Bool)
  iters : ℕ
  errs : List ℚ
  tracked : List ℚ

/-- The earlier revision's loop: midpoint bisection with best-point
tracking, a stagnation counter incremented when the error improves by less
than `DISTANCE_TOLERANCE_M / 10` and reset otherwise, and a secant
correction once the counter exceeds `5`: the endpoint errors are evaluated
and, when they differ, the secant root is evaluated and tracked; the counter
resets, the bracket is adjusted by `stagnationBounds`, and `prev_error` is
left unchanged (the `continue` skips its assignment). -/
def p0Loop (o : Oracle) (fix_coords : Coordinates) (true_bearing : ℚ)
    (dme_coords : Coordinates) (distance_m : ℚ) :
    ℕ → ℚ → ℚ → Option ℚ → Coordinates → Option ℚ → ℕ → P0Result
  | 0, _, _, be, bp, _, _ => ⟨bp, be, [], 0, [], []⟩
  | n + 1, min_dist, max_dist, be, bp, prev_error, counter =>
    let test_dist := (min_dist + max_dist) / 2
    let ev := evalAt o fix_coords true_bearing dme_coords test_dist
    let error_m := |ev.t2dm - distance_m|
    let be2 := if improves error_m be then some error_m else be
    let bp2 := if improves error_m be then ev.point else bp
    if error_m < DISTANCE_TOLERANCE_M then ⟨bp2, be2, [], 1, [error_m], [error_m]⟩
    else
      let counter2 := if stagnant prev_error error_m then counter + 1 else 0
      if counter2 > 5 then
        let error_1 := (evalAt o fix_coords true_bearing dme_coords min_dist).t2dm - distance_m
        let error_2 := (evalAt o fix_coords true_bearing dme_coords max_dist).t2dm - distance_m
        if error_1 ≠ error_2 then
          let test_dist2 := min_dist + (max_dist - min_dist) * (0 - error_1) / (error_2 - error_1)
          let ev3 := evalAt o fix_coords true_bearing dme_coords test_dist2
          let error_m2 := |ev3.t2dm - distance_m|
          let be3 := if improves error_m2 be2 then some error_m2 else be2
          let bp3 := if improves error_m2 be2 then ev3.point else bp2
          if error_m2 < DISTANCE_TOLERANCE_M then
            ⟨bp3, be3, [(counter2, true)], 1,
             [error_m, |error_1|, |error_2|, error_m2], [error_m, error_m2]⟩
          else
            let b := stagnationBounds min_dist max_dist test_dist2 ev.t2dm distance_m
            let r := p0Loop o fix_coords true_bearing dme_coords distance_m n b.1 b.2
              be3 bp3 prev_error 0
            ⟨r.point, r.best_err, (counter2, true) :: r.trace, r.iters + 1,
             error_m :: |error_1| :: |error_2| :: error_m2 :: r.errs,
             error_m :: error_m2 :: r.tracked⟩
        else
          let b := stagnationBounds min_dist max_dist test_dist ev.t2dm distance_m
          let r := p0Loop o fix_coords true_bearing dme_coords distance_m n b.1 b.2
            be2 bp2 prev_error 0
          ⟨r.point, r.best_err, (counter2, true) :: r.trace, r.iters + 1,
           error_m :: |error_1| :: |error_2| :: r.errs, error_m :: r.tracked⟩
      else
        let min2 := if ev.t2dm > distance_m then min_dist else test_dist
        let max2 := if ev.t2dm > distance_m then test_dist else max_dist
        if max2 - min2 < 1/1000000 then ⟨bp2, be2, [(counter2, false)], 1, [error_m], [error_m]⟩
        else
          let r := p0Loop o fix_coords true_bearing dme_coords distance_m n min2 max2
            be2 bp2 (some error_m) counter2
          ⟨r.point, r.best_err, (counter2, false) :: r.trace, r.iters + 1,
           error_m :: r.errs, error_m :: r.tracked⟩

/-- `find_radial_distance_intersection` of the earlier revision: bracket
initialization without the degenerate fallback, best point seeded at
`{'lat': 0, 'lon': 0}`, `prev_error = float('inf')`, counter `0`; the
post-loop re-verification always leaves `best_approx_point` as the result. -/
def find_radial_distance_intersection_v0 (o : Oracle) (fix_coords : Coordinates)
    (true_bearing : ℚ) (dme_coords : Coordinates) (distance_nm : ℚ) : P0Result :=
  let distance_m := nm_to_meters distance_nm
  let fix_dme_distance_nm :=
    meters_to_nm (o.inverse fix_coords.lat fix_coords.lon dme_coords.lat dme_coords.lon).s12
  let sr := searchRange_v0 fix_dme_distance_nm distance_nm
  p0Loop o fix_coords true_bearing dme_coords distance_m MAX_ITERATIONS sr.1 sr.2
    none ⟨0, 0⟩ none 0

/-- Absolute error of a point against the target distance, as measured by
one oracle inverse call to the DME: the quantity the solver minimizes. -/
def errorOf (o : Oracle) (dme_coords : Coordinates) (distance_m : ℚ)
    (p : Coordinates) : ℚ :=
  |(o.inverse p.lat p.lon dme_coords.lat dme_coords.lon).s12 - distance_m|

/-- Order on best-error trackers, `none` being the initial infinity. -/
def optLE : Option ℚ → Option ℚ → Prop
  | _, none => True
  | none, some _ => False
  | some a, some b => a ≤ b

/-! ## Concrete oracles used by the witnesses and counterexamples -/

/-- Oracle whose inverse always reports `18520` m (10 NM): the first solver
midpoint already has zero error. -/
def oracleExact : Oracle :=
  ⟨fun _ _ _ _ => (1, 2), fun _ _ _ _ => ⟨18520, 0⟩⟩

/-- Oracle whose inverse always reports `20000` m. -/
def oracleFlat : Oracle :=
  ⟨fun _ _ _ _ => (3, 4), fun _ _ _ _ => ⟨20000, 0⟩⟩

/-- Oracle whose forward result is a fixed point and whose inverse reports a
distance `0.2` m away from 100 NM: the verification error exceeds `0.1` m. -/
def oracleDrift : Oracle :=
  ⟨fun _ _ _ _ => (7, 8), fun _ _ _ _ => ⟨185200 + 1/5, 0⟩⟩

/-- Oracle whose inverse reports an azimuth of `0.1` degrees. -/
def oracleWrap : Oracle :=
  ⟨fun _ _ _ _ => (0, 0), fun _ _ _ _ => ⟨1852, 1/10⟩⟩

/-- Forward calls encode the travelled distance in the latitude; the inverse
distance is a function of that latitude chosen so that, for the query
`distance_nm = 1/25` (bracket `[0, 0.2]`, midpoints `0.1, 0.05, ...` NM),
the errors are `2, 2.05, 2.1, 2.15, 2.2, 2.25` for six iterations (five
consecutive improvements below one-tenth of the tolerance) and `0` at the
seventh midpoint. -/
def stagnationDist (m : ℚ) : ℚ :=
  if m = 926/5 then 1852/25 + 2
  else if m = 463/5 then 1852/25 + 41/20
  else if m = 463/10 then 1852/25 + 21/10
  else if m = 463/20 then 1852/25 + 43/20
  else if m = 463/40 then 1852/25 + 11/5
  else if m = 463/80 then 1852/25 + 9/4
  else if m = 463/160 then 1852/25
  else 0

def oracleStagnant : Oracle :=
  ⟨fun _ _ _ s => (s, 0), fun lat _ _ _ => ⟨stagnationDist lat, 0⟩⟩

/-- Distances for the earlier revision's best-point refutation, for the
query `distance_nm = 1/25` (bracket `[0, 0.2]`): the midpoint errors are
`2, 2.05, 2.1, 2.15, 2.2, 2.25, 2.3` for seven stagnating iterations, so
the stagnation branch fires at the seventh; its probe of the `min = 0`
endpoint has error `1/2` (untracked), its `max` probe error `9/4`, the
secant point error `2`; the eighth midpoint has error `9/10`, below
tolerance, ending the run with best error `9/10 > 1/2`. -/
def probeDist (m : ℚ) : ℚ :=
  if m = 0 then 1852/25 - 1/2
  else if m = 463/5 then 1852/25 + 41/20
  else if m = 463/10 then 1852/25 + 21/10
  else if m = 463/20 then 1852/25 + 43/20
  else if m = 463/40 then 1852/25 + 11/5
  else if m = 463/80 then 1852/25 + 9/4
  else if m = 463/160 then 1852/25 + 23/10
  else if m = 463/880 then 1852/25 + 9/10
  else 1852/25 + 2

def oracleProbe : Oracle :=
  ⟨fun _ _ _ s => (s, 0), fun lat _ _ _ => ⟨probeDist lat, 0⟩⟩

/-- Distances for the earlier revision's width-stop refutation: at the
bracket `[0, 1/2000]` with a stagnating history, the midpoint error is `2`
(stagnant), the `min = 0` probe error is `-1/1000` and the `max` probe
error `2`, so the secant lands at `1/4002000` — strictly inside — and the
fire narrows the bracket to `(0, 1/4002000)`, whose width is below `1e-6`;
the next midpoint (at `1/8004000` NM, i.e. `463/2001000` m) has error `0`,
so one more full evaluation happens after the width already shrank below
the threshold. -/
def fireWidthDist (m : ℚ) : ℚ :=
  if m = 0 then 1852 - 1/1000
  else if m = 463/2001000 then 1852
  else 1854

def oracleFireWidth : Oracle :=
  ⟨fun _ _ _ s => (s, 0), fun lat _ _ _ => ⟨fireWidthDist lat, 0⟩⟩

/-! ## Step equations for the recursive definitions -/

theorem scanRanges_nil (d : ℚ) : scanRanges d [] = none := rfl

theorem scanRanges_cons (d : ℚ) (r : ℚ × ℚ × Char) (rest : List (ℚ × ℚ × Char)) :
    scanRanges d (r :: rest) =
      if r.1 ≤ d ∧ d < r.2.1 then some r.2.2 else scanRanges d rest := rfl

theorem scanRangesClosed_nil (d : ℚ) : scanRangesClosed d [] = none := rfl

theorem scanRangesClosed_cons (d : ℚ) (r : ℚ × ℚ × Char) (rest : List (ℚ × ℚ × Char)) :
    scanRangesClosed d (r :: rest) =
      if r.1 ≤ d ∧ d ≤ r.2.1 then some r.2.2 else scanRangesClosed d rest := rfl

theorem solverLoop_zero (o : Oracle) (fc : Coordinates) (tb : ℚ) (dc : Coordinates)
    (dm mn mx : ℚ) (be : Option ℚ) (bp : Coordinates) :
    solverLoop o fc tb dc dm 0 mn mx be bp = ⟨bp, be, 0, []⟩ := rfl

theorem solverLoop_succ (o : Oracle) (fc : Coordinates) (tb : ℚ) (dc : Coordinates)
    (dm : ℚ) (n : ℕ) (mn mx : ℚ) (be : Option ℚ) (bp : Coordinates) :
    solverLoop o fc tb dc dm (n + 1) mn mx be bp =
      (let test_dist := (mn + mx) / 2
       let ev := evalAt o fc tb dc test_dist
       let error_m := |ev.t2dm - dm|
       let be2 := if improves error_m be then some error_m else be
       let bp2 := if improves error_m be then ev.point else bp
       if error_m < DISTANCE_TOLERANCE_M then ⟨bp2, be2, 1, [error_m]⟩
       else
         let min2 := if ev.t2dm > dm then mn else test_dist
         let max2 := if ev.t2dm > dm then test_dist else mx
         if max2 - min2 < 1/1000000 then ⟨bp2, be2, 1, [error_m]⟩
         else
           let r := solverLoop o fc tb dc dm n min2 max2 be2 bp2
           ⟨r.point, r.best_err, r.iters + 1, error_m :: r.errs⟩) := rfl

/-- The loop stops at once when the midpoint error is within tolerance
(guarded unrolling used to evaluate concrete runs). -/
theorem solverLoop_stop_tol (o : Oracle) (fc : Coordinates) (tb : ℚ) (dc : Coordinates)
    (dm : ℚ) (n : ℕ) (mn mx : ℚ) (be : Option ℚ) (bp : Coordinates)
    (htol : |(evalAt o fc tb dc ((mn + mx) / 2)).t2dm - dm| < DISTANCE_TOLERANCE_M) :
    solverLoop o fc tb dc dm (n + 1) mn mx be bp =
      ⟨if improves |(evalAt o fc tb dc ((mn + mx) / 2)).t2dm - dm| be
          then (evalAt o fc tb dc ((mn + mx) / 2)).point else bp,
       if improves |(evalAt o fc tb dc ((mn + mx) / 2)).t2dm - dm| be
          then some |(evalAt o fc tb dc ((mn + mx) / 2)).t2dm - dm| else be,
       1, [|(evalAt o fc tb dc ((mn + mx) / 2)).t2dm - dm|]⟩ := by
  rw [solverLoop_succ]
  simp only []
  rw [if_pos htol]

theorem p0Loop_zero (o : Oracle) (fc : Coordinates) (tb : ℚ) (dc : Coordinates)
    (dm mn mx : ℚ) (be : Option ℚ) (bp : Coordinates) (prev : Option ℚ) (c : ℕ) :
    p0Loop o fc tb dc dm 0 mn mx be bp prev c = ⟨bp, be, [], 0, [], []⟩ := rfl

theorem p0Loop_succ (o : Oracle) (fc : Coordinates) (tb : ℚ) (dc : Coordinates)
    (dm : ℚ) (n : ℕ) (mn mx : ℚ) (be : Option ℚ) (bp : Coordinates)
    (prev : Option ℚ) (counter : ℕ) :
    p0Loop o fc tb dc dm (n + 1) mn mx be bp prev counter =
      (let test_dist := (mn + mx) / 2
       let ev := evalAt o fc tb dc test_dist
       let error_m := |ev.t2dm - dm|
       let be2 := if improves error_m be then some error_m else be
       let bp2 := if improves error_m be then ev.point else bp
       if error_m < DISTANCE_TOLERANCE_M then ⟨bp2, be2, [], 1, [error_m], [error_m]⟩
       else
         let counter2 := if stagnant prev error_m then counter + 1 else 0
         if counter2 > 5 then
           let error_1 := (evalAt o fc tb dc mn).t2dm - dm
           let error_2 := (evalAt o fc tb dc mx).t2dm - dm
           if error_1 ≠ error_2 then
             let test_dist2 := mn + (mx - mn) * (0 - error_1) / (error_2 - error_1)
             let ev3 := evalAt o fc tb dc test_dist2
             let error_m2 := |ev3.t2dm - dm|
             let be3 := if improves error_m2 be2 then some error_m2 else be2
             let bp3 := if improves error_m2 be2 then ev3.point else bp2
             if error_m2 < DISTANCE_TOLERANCE_M then
               ⟨bp3, be3, [(counter2, true)], 1,
                [error_m, |error_1|, |error_2|, error_m2], [error_m, error_m2]⟩
             else
               let b := stagnationBounds mn mx test_dist2 ev.t2dm dm
               let r := p0Loop o fc tb dc dm n b.1 b.2 be3 bp3 prev 0
               ⟨r.point, r.best_err, (counter2, true) :: r.trace, r.iters + 1,
                error_m :: |error_1| :: |error_2| :: error_m2 :: r.errs,
                error_m :: error_m2 :: r.tracked⟩
           else
             let b := stagnationBounds mn mx test_dist ev.t2dm dm
             let r := p0Loop o fc tb dc dm n b.1 b.2 be2 bp2 prev 0
             ⟨r.point, r.best_err, (counter2, true) :: r.trace, r.iters + 1,
              error_m :: |error_1| :: |error_2| :: r.errs, error_m :: r.tracked⟩
         else
           let min2 := if ev.t2dm > dm then mn else test_dist
           let max2 := if ev.t2dm > dm then test_dist else mx
           if max2 - min2 < 1/1000000 then
             ⟨bp2, be2, [(counter2, false)], 1, [error_m], [error_m]⟩
           else
             let r := p0Loop o fc tb dc dm n min2 max2 be2 bp2 (some error_m) counter2
             ⟨r.point, r.best_err, (counter2, false) :: r.trace, r.iters + 1,
              error_m :: r.errs, error_m :: r.tracked⟩) := rfl

/-- The earlier revision's loop stops at once when the midpoint error is
within tolerance (guarded unrolling used to evaluate concrete runs). -/
theorem p0Loop_stop_tol (o : Oracle) (fc : Coordinates) (tb : ℚ) (dc : Coordinates)
    (dm : ℚ) (n : ℕ) (mn mx : ℚ) (be : Option ℚ) (bp : Coordinates)
    (prev : Option ℚ) (counter : ℕ)
    (htol : |(evalAt o fc tb dc ((mn + mx) / 2)).t2dm - dm| < DISTANCE_TOLERANCE_M) :
    p0Loop o fc tb dc dm (n + 1) mn mx be bp prev counter =
      ⟨if improves |(evalAt o fc tb dc ((mn + mx) / 2)).t2dm - dm| be
          then (evalAt o fc tb dc ((mn + mx) / 2)).point else bp,
       if improves |(evalAt o fc tb dc ((mn + mx) / 2)).t2dm - dm| be
          then some |(evalAt o fc tb dc ((mn + mx) / 2)).t2dm - dm| else be,
       [], 1, [|(evalAt o fc tb dc ((mn + mx) / 2)).t2dm - dm|],
       [|(evalAt o fc tb dc ((mn + mx) / 2)).t2dm - dm|]⟩ := by
  rw [p0Loop_succ]
  simp only []
  rw [if_pos htol]

/-- The earlier revision's loop: one ordinary bisection iteration (no
tolerance stop, no stagnation firing, no width stop), guarded unrolling. -/
theorem p0Loop_cont (o : Oracle) (fc : Coordinates) (tb : ℚ) (dc : Coordinates)
    (dm : ℚ) (n : ℕ) (mn mx : ℚ) (be : Option ℚ) (bp : Coordinates)
    (prev : Option ℚ) (counter : ℕ)
    (htol : ¬(|(evalAt o fc tb dc ((mn + mx) / 2)).t2dm - dm| < DISTANCE_TOLERANCE_M))
    (hfire : ¬((if stagnant prev |(evalAt o fc tb dc ((mn + mx) / 2)).t2dm - dm|
        then counter + 1 else 0) > 5))
    (hw : ¬((if (evalAt o fc tb dc ((mn + mx) / 2)).t2dm > dm then (mn + mx) / 2 else mx) -
        (if (evalAt o fc tb dc ((mn + mx) / 2)).t2dm > dm then mn else (mn + mx) / 2)
        < 1/1000000)) :
    p0Loop o fc tb dc dm (n + 1) mn mx be bp prev counter =
      (let error_m := |(evalAt o fc tb dc ((mn + mx) / 2)).t2dm - dm|
       let counter2 := if stagnant prev error_m then counter + 1 else 0
       let r := p0Loop o fc tb dc dm n
          (if (evalAt o fc tb dc ((mn + mx) / 2)).t2dm > dm then mn else (mn + mx) / 2)
          (if (evalAt o fc tb dc ((mn + mx) / 2)).t2dm > dm then (mn + mx) / 2 else mx)
          (if improves error_m be then some error_m else be)
          (if improves error_m be then (evalAt o fc tb dc ((mn + mx) / 2)).point else bp)
          (some error_m) counter2
       ⟨r.point, r.best_err, (counter2, false) :: r.trace, r.iters + 1,
        error_m :: r.errs, error_m :: r.tracked⟩) := by
  rw [p0Loop_succ]
  simp only []
  rw [if_neg htol, if_neg hfire, if_neg hw]

/-- The earlier revision's loop: one firing stagnation iteration whose
endpoint errors differ and whose secant evaluation does not reach the
tolerance, guarded unrolling. -/
theorem p0Loop_fire_cont (o : Oracle) (fc : Coordinates) (tb : ℚ) (dc : Coordinates)
    (dm : ℚ) (n : ℕ) (mn mx : ℚ) (be : Option ℚ) (bp : Coordinates)
    (prev : Option ℚ) (counter : ℕ)
    (htol : ¬(|(evalAt o fc tb dc ((mn + mx) / 2)).t2dm - dm| < DISTANCE_TOLERANCE_M))
    (hfire : (if stagnant prev |(evalAt o fc tb dc ((mn + mx) / 2)).t2dm - dm|
        then counter + 1 else 0) > 5)
    (hne : (evalAt o fc tb dc mn).t2dm - dm ≠ (evalAt o fc tb dc mx).t2dm - dm)
    (htol2 : ¬(|(evalAt o fc tb dc (mn + (mx - mn) *
        (0 - ((evalAt o fc tb dc mn).t2dm - dm)) /
        ((evalAt o fc tb dc mx).t2dm - dm - ((evalAt o fc tb dc mn).t2dm - dm)))).t2dm - dm|
        < DISTANCE_TOLERANCE_M)) :
    p0Loop o fc tb dc dm (n + 1) mn mx be bp prev counter =
      (let ev := evalAt o fc tb dc ((mn + mx) / 2)
       let error_m := |ev.t2dm - dm|
       let be2 := if improves error_m be then some error_m else be
       let bp2 := if improves error_m be then ev.point else bp
       let counter2 := if stagnant prev error_m then counter + 1 else 0
       let error_1 := (evalAt o fc tb dc mn).t2dm - dm
       let error_2 := (evalAt o fc tb dc mx).t2dm - dm
       let test_dist2 := mn + (mx - mn) * (0 - error_1) / (error_2 - error_1)
       let ev3 := evalAt o fc tb dc test_dist2
       let error_m2 := |ev3.t2dm - dm|
       let b := stagnationBounds mn mx test_dist2 ev.t2dm dm
       let r := p0Loop o fc tb dc dm n b.1 b.2
          (if improves error_m2 be2 then some error_m2 else be2)
          (if improves error_m2 be2 then ev3.point else bp2) prev 0
       ⟨r.point, r.best_err, (counter2, true) :: r.trace, r.iters + 1,
        error_m :: |error_1| :: |error_2| :: error_m2 :: r.errs,
        error_m :: error_m2 :: r.tracked⟩) := by
  rw [p0Loop_succ]
  simp only []
  rw [if_neg htol, if_pos hfire, if_pos hne, if_neg htol2]

/-! ## C8: coordinate construction validation -/

/-- C8: constructing a coordinate value succeeds exactly for latitude in
`[-90, 90]` and longitude in `(-180, 180]` (current revision), respectively
`[-180, 180]` (`core_vor_calc.py`); longitude exactly `-180` is rejected by
the first convention and accepted by the second. -/
theorem coordinates_range_validation :
    (∀ lat lon : ℚ, (mkCoordinates lat lon).isSome ↔
      (-90 ≤ lat ∧ lat ≤ 90) ∧ (-180 < lon ∧ lon ≤ 180))
    ∧ (∀ lat lon : ℚ, (mkCoordinatesCore lat lon).isSome ↔
      (-90 ≤ lat ∧ lat ≤ 90) ∧ (-180 ≤ lon ∧ lon ≤ 180))
    ∧ mkCoordinates 0 (-180) = none
    ∧ mkCoordinatesCore 0 (-180) = some ⟨0, -180⟩ := by
  refine ⟨?_, ?_, ?_, ?_⟩
  · intro lat lon
    unfold mkCoordinates
    split_ifs with h1 h2 <;> simp_all
  · intro lat lon
    unfold mkCoordinatesCore
    split_ifs with h1 h2 <;> simp_all
  · norm_num [mkCoordinates]
  · norm_num [mkCoordinatesCore]

/-! ## C9: empty-batch metrics -/

/-- C9: `calculate_precision_metrics` on the empty list returns all-zero
statistics and a count of `0`, for every oracle; being a total function of
its inputs, it cannot raise. -/
theorem precision_metrics_empty (o : Oracle) :
    calculate_precision_metrics o [] = ⟨0, 0, 0, 0, 0, 0, 0⟩ := rfl

/-! ## C6: azimuth normalization and shortest angular distance -/

/-- C6: `validate_calculation_accuracy` normalizes both azimuths into
`[0, 360)` and reports the azimuth error as `min(|diff|, 360 - |diff|)`,
which is always at most `180`; with expected bearing `359.9` and an oracle
azimuth of `0.1` the reported error is exactly `0.2`, not `359.8`. -/
theorem azimuth_error_shortest_distance :
    (∀ (o : Oracle) (s e : Coordinates) (ea ed : ℚ),
      (validate_calculation_accuracy o s e ea ed).azimuth_error_deg =
        min |pymod (o.inverse s.lat s.lon e.lat e.lon).azi1 360 - pymod ea 360|
            (360 - |pymod (o.inverse s.lat s.lon e.lat e.lon).azi1 360 - pymod ea 360|))
    ∧ (∀ x : ℚ, 0 ≤ pymod x 360 ∧ pymod x 360 < 360)
    ∧ (∀ (o : Oracle) (s e : Coordinates) (ea ed : ℚ),
      (validate_calculation_accuracy o s e ea ed).azimuth_error_deg ≤ 180)
    ∧ (validate_calculation_accuracy oracleWrap ⟨0, 0⟩ ⟨1, 1⟩ (3599/10) 1).azimuth_error_deg
        = 1/5 := by
  have hmod : ∀ x : ℚ, 0 ≤ pymod x 360 ∧ pymod x 360 < 360 := by
    intro x
    have h1 : ((⌊x / 360⌋ : ℚ)) ≤ x / 360 := Int.floor_le _
    have h2 : x / 360 < (⌊x / 360⌋ : ℚ) + 1 := Int.lt_floor_add_one _
    have hx : x = 360 * (x / 360) := by field_simp
    unfold pymod
    constructor <;> nlinarith [h1, h2]
  refine ⟨fun _ _ _ _ _ => rfl, hmod, ?_, ?_⟩
  · intro o s e ea ed
    show min |pymod (o.inverse s.lat s.lon e.lat e.lon).azi1 360 - pymod ea 360|
          (360 - |pymod (o.inverse s.lat s.lon e.lat e.lon).azi1 360 - pymod ea 360|) ≤ 180
    rcases le_total |pymod (o.inverse s.lat s.lon e.lat e.lon).azi1 360 - pymod ea 360| 180
      with h | h
    · exact le_trans (min_le_left _ _) h
    · exact le_trans (min_le_right _ _) (by linarith)
  · show min |pymod ((oracleWrap.inverse 0 0 1 1).azi1) 360 - pymod (3599/10) 360|
          (360 - |pymod ((oracleWrap.inverse 0 0 1 1).azi1) 360 - pymod (3599/10) 360|) = 1/5
    have e1 : pymod ((oracleWrap.inverse 0 0 1 1).azi1) 360 = 1/10 := by
      norm_num [oracleWrap, pymod]
    have e2 : pymod (3599/10) 360 = 3599/10 := by
      norm_num [pymod]
    rw [e1, e2, min_def]
    norm_num [abs_of_nonpos]

/-! ## C2: search-bracket initialization policy -/

/-- C2: the solver's bracket equals the spec's stated policy (case split on
`targetDistanceNM` with the degenerate `min >= max` fallback); the earlier
revision's bracket (which lacks the fallback) agrees whenever the
origin-to-reference distance is nonnegative; and the solver runs its loop on
exactly this bracket of the precomputed origin-to-reference geodesic
distance. -/
theorem search_range_policy :
    (∀ d t : ℚ, searchRange d t = searchRangeSpec d t)
    ∧ (∀ d t : ℚ, 0 ≤ d → searchRange_v0 d t = searchRange d t)
    ∧ (∀ (o : Oracle) (fc : Coordinates) (tb : ℚ) (dc : Coordinates) (t : ℚ),
      find_radial_distance_intersection o fc tb dc t =
        solverLoop o fc tb dc (nm_to_meters t) MAX_ITERATIONS
          (searchRange (meters_to_nm (o.inverse fc.lat fc.lon dc.lat dc.lon).s12) t).1
          (searchRange (meters_to_nm (o.inverse fc.lat fc.lon dc.lat dc.lon).s12) t).2
          none fc) := by
  refine ⟨?_, ?_, fun _ _ _ _ _ => rfl⟩
  · intro d t
    simp only [searchRange, searchRangeSpec]
    by_cases h1 : t < 1/20
    · rw [if_pos h1, if_pos h1]
      norm_num
    · by_cases h2 : t < 1/2
      · have hs : 1/20 ≤ t ∧ t < 1/2 := ⟨not_lt.mp h1, h2⟩
        rw [if_neg h1, if_neg h1, if_pos h2, if_pos hs, mul_comm t 2]
      · have hs : ¬(1/20 ≤ t ∧ t < 1/2) := fun hc => h2 hc.2
        rw [if_neg h1, if_neg h1, if_neg h2, if_neg hs, mul_comm t 2]
  · intro d t hd
    simp only [searchRange_v0, searchRange]
    by_cases h1 : t < 1/20
    · rw [if_pos h1]
      norm_num
    · by_cases h2 : t < 1/2
      · rw [if_neg h1, if_pos h2, ite_self]
      · have h2b : 1/2 ≤ t := not_lt.mp h2
        have hno : ¬((max 0 (d - t - 1), d + t + 1).1 ≥ (max 0 (d - t - 1), d + t + 1).2) := by
          show ¬(d + t + 1 ≤ max 0 (d - t - 1))
          exact not_le.mpr (max_lt (by linarith) (by linarith))
        rw [if_neg h1, if_neg h2, if_neg hno]

/-- C2 witnessed at a concrete nonnegative origin-to-reference distance. -/
theorem search_range_policy_witness :
    (0 : ℚ) ≤ 5 ∧ searchRange_v0 5 10 = searchRange 5 10
    ∧ searchRange 5 10 = searchRangeSpec 5 10 :=
  ⟨by norm_num, search_range_policy.2.1 5 10 (by norm_num), search_range_policy.1 5 10⟩

/-! ## C4 and C10: the coordinate projector's branch structure -/

/-- C4 counterexample: with an oracle whose inverse-verification error is
`0.2` m (> 0.1 m) and a distance of `100` NM (so `num_steps = 1`), the
projector still returns the single-step result after exactly one forward
call, contradicting the claimed "returns the single-step result immediately
if and only if the verified distance error is at most 0.1 m". -/
theorem project_iff_counterexample :
    (calculate_target_coords_geodesic oracleDrift ⟨0, 0⟩ 90 100).2 = 1
    ∧ ¬(|(oracleDrift.inverse 0 0
          (oracleDrift.direct 0 0 90 (nm_to_meters 100)).1
          (oracleDrift.direct 0 0 90 (nm_to_meters 100)).2).s12
        - nm_to_meters 100| ≤ 1/10) := by
  constructor
  · norm_num [calculate_target_coords_geodesic, oracleDrift, nm_to_meters,
      METERS_PER_NM, pyInt]
  · norm_num [oracleDrift, nm_to_meters, METERS_PER_NM, abs_of_nonneg]

/-- C4 (amended): for every oracle and positive distance, the projector
converts the distance exactly as `distance_nm * 1852`, makes one forward
call verified by one inverse call, and returns the single-step result if
the verified error is at most `0.1` m or `num_steps = max(1,
int(distance_nm / 500))` equals `1`; only otherwise does it subdivide into
`num_steps` equal forward steps, each destination feeding the next step at
the same constant bearing, and return the final point. -/
theorem project_amended (o : Oracle) (sc : Coordinates) (az d : ℚ) (hd : 0 < d) :
    calculate_target_coords_geodesic o sc az d = projectSpec o sc az d := by
  have h1 : (1 : ℤ) ≤ max 1 (pyInt (d / 500)) := le_max_left _ _
  simp only [calculate_target_coords_geodesic, projectSpec, nm_to_meters, METERS_PER_NM]
  by_cases ha : |(o.inverse sc.lat sc.lon (o.direct sc.lat sc.lon az (d * 1852)).1
      (o.direct sc.lat sc.lon az (d * 1852)).2).s12 - d * 1852| ≤ 1/10
  · rw [if_neg (not_lt.mpr ha), if_pos (Or.inl ha)]
  · by_cases hn : max 1 (pyInt (d / 500)) = (1 : ℤ)
    · rw [if_pos (not_le.mp ha), hn]
      norm_num
    · have hgt : (1 : ℤ) < max 1 (pyInt (d / 500)) := lt_of_le_of_ne h1 (Ne.symm hn)
      rw [if_pos (not_le.mp ha), if_pos hgt, if_neg (not_or.mpr ⟨ha, hn⟩)]

/-- C4 amended, witnessed at `oracleDrift` and distance `100` NM. -/
theorem project_amended_witness :
    (0 : ℚ) < 100
    ∧ calculate_target_coords_geodesic oracleDrift ⟨0, 0⟩ 90 100 =
        projectSpec oracleDrift ⟨0, 0⟩ 90 100 :=
  ⟨by norm_num, project_amended oracleDrift ⟨0, 0⟩ 90 100 (by norm_num)⟩

/-- C10: for every oracle, origin, bearing, and distance strictly between
`0` and `1000` NM, `num_steps = max(1, int(distance_nm / 500)) = 1`, the
multi-step branch is unreachable, and the projector returns the single-step
forward result with exactly one forward call, regardless of the
inverse-verification error. -/
theorem project_single_step_below_1000 (o : Oracle) (sc : Coordinates) (az d : ℚ)
    (hd : 0 < d) (hlt : d < 1000) :
    calculate_target_coords_geodesic o sc az d =
      (⟨(o.direct sc.lat sc.lon az (nm_to_meters d)).1,
        (o.direct sc.lat sc.lon az (nm_to_meters d)).2⟩, 1) := by
  have hfl : pyInt (d / 500) ≤ 1 := by
    unfold pyInt
    rw [if_pos (by positivity)]
    have : ⌊d / 500⌋ < (2 : ℤ) := Int.floor_lt.mpr (by push_cast; linarith)
    omega
  have hmax : max 1 (pyInt (d / 500)) = (1 : ℤ) := max_eq_left hfl
  simp only [calculate_target_coords_geodesic, hmax]
  norm_num

/-- C10 witnessed at `oracleDrift` (verification error `0.2` m > threshold)
and distance `100` NM. -/
theorem project_single_step_below_1000_witness :
    (0 : ℚ) < 100 ∧ (100 : ℚ) < 1000
    ∧ calculate_target_coords_geodesic oracleDrift ⟨0, 0⟩ 90 100 = (⟨7, 8⟩, 1) := by
  refine ⟨by norm_num, by norm_num, ?_⟩
  rw [project_single_step_below_1000 oracleDrift ⟨0, 0⟩ 90 100 (by norm_num) (by norm_num)]
  rfl

/-! ## C7: designator encoder -/

/-- In a chain of buckets whose upper bounds do not exceed the next lower
bound, the head's upper bound is below every later bucket's lower bound. -/
theorem chain_le_of_mem {l : List (ℚ × ℚ × Char)} {a t : ℚ × ℚ × Char}
    (hchain : List.Chain' (fun x y => x.2.1 ≤ y.1) (a :: l))
    (hwf : ∀ r ∈ a :: l, r.1 ≤ r.2.1)
    (ht : t ∈ l) : a.2.1 ≤ t.1 := by
  induction l generalizing a with
  | nil => cases ht
  | cons b m ih =>
    have hab : a.2.1 ≤ b.1 := (List.chain'_cons.mp hchain).1
    rcases List.mem_cons.mp ht with rfl | ht2
    · exact hab
    · have hb : b.1 ≤ b.2.1 := hwf b (by simp)
      have := ih (a := b) (List.chain'_cons.mp hchain).2
        (fun r hr => hwf r (List.mem_cons_of_mem a hr)) ht2
      linarith

/-- A bucket scan finds exactly the bucket containing `d`, provided the
buckets are well-formed and chained in increasing order. -/
theorem scanRanges_of_mem {l : List (ℚ × ℚ × Char)} {t : ℚ × ℚ × Char} {d : ℚ}
    (hmem : t ∈ l)
    (hchain : List.Chain' (fun x y => x.2.1 ≤ y.1) l)
    (hwf : ∀ r ∈ l, r.1 ≤ r.2.1)
    (h1 : t.1 ≤ d) (h2 : d < t.2.1) :
    scanRanges d l = some t.2.2 := by
  induction l with
  | nil => cases hmem
  | cons a m ih =>
    rcases List.mem_cons.mp hmem with rfl | hmem2
    · rw [scanRanges_cons, if_pos ⟨h1, h2⟩]
    · have hle : a.2.1 ≤ t.1 := chain_le_of_mem hchain hwf hmem2
      have hcond : ¬(a.1 ≤ d ∧ d < a.2.1) := fun hc =>
        absurd hc.2 (not_lt.mpr (le_trans hle h1))
      rw [scanRanges_cons, if_neg hcond]
      exact ih hmem2 hchain.tail (fun r hr => hwf r (List.mem_cons_of_mem a hr))

/-- A bucket scan misses when no bucket admits `d`. -/
theorem scanRanges_of_none {l : List (ℚ × ℚ × Char)} {d : ℚ}
    (h : ∀ r ∈ l, ¬(r.1 ≤ d ∧ d < r.2.1)) :
    scanRanges d l = none := by
  induction l with
  | nil => rfl
  | cons a m ih =>
    rw [scanRanges_cons, if_neg (h a (by simp))]
    exact ih fun r hr => h r (List.mem_cons_of_mem a hr)

/-- The closed-bucket scan of the earlier revision misses when no bucket
admits `d`. -/
theorem scanRangesClosed_of_none {l : List (ℚ × ℚ × Char)} {d : ℚ}
    (h : ∀ r ∈ l, ¬(r.1 ≤ d ∧ d ≤ r.2.1)) :
    scanRangesClosed d l = none := by
  induction l with
  | nil => rfl
  | cons a m ih =>
    rw [scanRangesClosed_cons, if_neg (h a (by simp))]
    exact ih fun r hr => h r (List.mem_cons_of_mem a hr)

/-- C7: the current revision maps every distance inside any of its 26
buckets to that bucket's letter; `1.4` maps to `A` and `1.5` to `B` in both
revisions; every distance at or above `26.5` NM falls back to `Z` in both
revisions; and distances below `0.1` NM fall back to `A` in the current
revision but to `Z` in the earlier one. -/
theorem radius_letter_buckets :
    (∀ t ∈ radius_ranges, ∀ d : ℚ, t.1 ≤ d → d < t.2.1 →
      get_radius_letter d = t.2.2)
    ∧ get_radius_letter (7/5) = 'A'
    ∧ get_radius_letter (3/2) = 'B'
    ∧ (∀ d : ℚ, 53/2 ≤ d → get_radius_letter d = 'Z')
    ∧ (∀ d : ℚ, d < 1/10 → get_radius_letter d = 'A')
    ∧ get_radius_letter_v0 (7/5) = 'A'
    ∧ get_radius_letter_v0 (3/2) = 'B'
    ∧ (∀ d : ℚ, 53/2 ≤ d → get_radius_letter_v0 d = 'Z')
    ∧ (∀ d : ℚ, d < 1/10 → get_radius_letter_v0 d = 'Z') := by
  have hchain : List.Chain' (fun x y => x.2.1 ≤ y.1) radius_ranges := by
    simp only [radius_ranges, List.chain'_cons, List.chain'_singleton, and_true]
    norm_num
  have hwf : ∀ r ∈ radius_ranges, r.1 ≤ r.2.1 := by
    intro r hr
    fin_cases hr <;> norm_num
  refine ⟨?_, ?_, ?_, ?_, ?_, ?_, ?_, ?_, ?_⟩
  · intro t ht d h1 h2
    unfold get_radius_letter
    rw [scanRanges_of_mem ht hchain hwf h1 h2]
  · norm_num [get_radius_letter, radius_ranges, scanRanges_cons, scanRanges_nil]
  · norm_num [get_radius_letter, radius_ranges, scanRanges_cons, scanRanges_nil]
  · intro d hd
    unfold get_radius_letter
    rw [scanRanges_of_none ?_]
    · rw [if_neg (by linarith)]
    · intro r hr
      have hup : r.2.1 ≤ 53/2 := by fin_cases hr <;> norm_num
      exact fun hc => absurd hc.2 (not_lt.mpr (le_trans hup hd))
  · intro d hd
    unfold get_radius_letter
    rw [scanRanges_of_none ?_]
    · rw [if_pos hd]
    · intro r hr
      have hlow : 1/10 ≤ r.1 := by fin_cases hr <;> norm_num
      exact fun hc => absurd hc.1 (not_le.mpr (lt_of_lt_of_le hd hlow))
  · norm_num [get_radius_letter_v0, radius_ranges_v0, scanRangesClosed_cons,
      scanRangesClosed_nil]
  · norm_num [get_radius_letter_v0, radius_ranges_v0, scanRangesClosed_cons,
      scanRangesClosed_nil]
  · intro d hd
    unfold get_radius_letter_v0
    rw [scanRangesClosed_of_none ?_]
    intro r hr
    have hup : r.2.1 ≤ 132/5 := by fin_cases hr <;> norm_num
    exact fun hc => absurd hc.2 (not_le.mpr (lt_of_le_of_lt hup (by linarith)))
  · intro d hd
    unfold get_radius_letter_v0
    rw [scanRangesClosed_of_none ?_]
    intro r hr
    have hlow : 1/10 ≤ r.1 := by fin_cases hr <;> norm_num
    exact fun hc => absurd hc.1 (not_le.mpr (lt_of_lt_of_le hd hlow))

/-- C7 witnessed: the first bucket applied at distance `1`, and the two
fallbacks applied at `27` and `0`, for both revisions. -/
theorem radius_letter_buckets_witness :
    ((1/10, 3/2, 'A') ∈ radius_ranges)
    ∧ (1/10 : ℚ) ≤ 1 ∧ (1 : ℚ) < 3/2 ∧ get_radius_letter 1 = 'A'
    ∧ (53/2 : ℚ) ≤ 27 ∧ get_radius_letter 27 = 'Z'
    ∧ (0 : ℚ) < 1/10 ∧ get_radius_letter 0 = 'A'
    ∧ get_radius_letter_v0 27 = 'Z' ∧ get_radius_letter_v0 0 = 'Z' := by
  have hmem : ((1:ℚ)/10, (3:ℚ)/2, 'A') ∈ radius_ranges := List.mem_cons_self _ _
  refine ⟨hmem, by norm_num, by norm_num,
    radius_letter_buckets.1 (1/10, 3/2, 'A') hmem 1 (by norm_num) (by norm_num),
    by norm_num,
    radius_letter_buckets.2.2.2.1 27 (by norm_num),
    by norm_num,
    radius_letter_buckets.2.2.2.2.1 0 (by norm_num),
    radius_letter_buckets.2.2.2.2.2.2.2.1 27 (by norm_num),
    radius_letter_buckets.2.2.2.2.2.2.2.2 0 (by norm_num)⟩

/-! ## C1 and C3: best-point tracking and termination of the solver loop -/

theorem optLE_refl (x : Option ℚ) : optLE x x := by
  cases x <;> simp [optLE]

theorem optLE_trans {x y z : Option ℚ} (hxy : optLE x y) (hyz : optLE y z) :
    optLE x z := by
  cases x <;> cases y <;> cases z <;> simp_all [optLE]
  linarith

/-- Updating the best error with a freshly evaluated error never worsens it,
and the update is at most the fresh error. -/
theorem update_best (em : ℚ) (be : Option ℚ) :
    optLE (if improves em be then some em else be) be
    ∧ ∃ b, (if improves em be then some em else be) = some b ∧ b ≤ em := by
  cases be with
  | none =>
    rw [if_pos (show improves em none = true from rfl)]
    exact ⟨trivial, em, rfl, le_refl em⟩
  | some b =>
    by_cases h : em < b
    · rw [if_pos (show improves em (some b) = true by simp [improves, h])]
      exact ⟨le_of_lt h, em, rfl, le_refl em⟩
    · rw [if_neg (show ¬(improves em (some b) = true) by simp [improves, h])]
      exact ⟨le_refl b, b, rfl, not_lt.mp h⟩

/-- Prepending a freshly evaluated error to a loop trace preserves the
best-error bound. -/
theorem best_cons {r : SolveResult} {be2 : Option ℚ} {em : ℚ}
    (hr2 : optLE r.best_err be2) (hb2 : ∃ b, be2 = some b ∧ b ≤ em)
    (hr3 : ∀ e ∈ r.errs, ∃ b, r.best_err = some b ∧ b ≤ e) :
    ∀ e ∈ em :: r.errs, ∃ b, r.best_err = some b ∧ b ≤ e := by
  intro e he
  rcases List.mem_cons.mp he with rfl | he2
  · rcases hb2 with ⟨b2, hb2eq, hb2le⟩
    rw [hb2eq] at hr2
    cases hbe : r.best_err with
    | none =>
      rw [hbe] at hr2
      exact hr2.elim
    | some br =>
      rw [hbe] at hr2
      exact ⟨br, rfl, le_trans hr2 hb2le⟩
  · exact hr3 e he2

/-- A best-error tracker below `y` and at most `e` whenever `y` is, is some
value at most `e`. -/
theorem optLE_some_le {x y : Option ℚ} {e : ℚ} (hxy : optLE x y)
    (hy : ∃ b, y = some b ∧ b ≤ e) : ∃ b, x = some b ∧ b ≤ e := by
  rcases hy with ⟨b, rfl, hbe⟩
  cases x with
  | none => exact hxy.elim
  | some a => exact ⟨a, rfl, le_trans hxy hbe⟩

/-- Prepending a freshly evaluated error to a tracked-error list preserves
the best-error bound (generic over the list). -/
theorem best_head {x y : Option ℚ} {em : ℚ} {l : List ℚ}
    (hxy : optLE x y) (hy : ∃ b, y = some b ∧ b ≤ em)
    (hl : ∀ e ∈ l, ∃ b, x = some b ∧ b ≤ e) :
    ∀ e ∈ em :: l, ∃ b, x = some b ∧ b ≤ e := by
  intro e he
  rcases List.mem_cons.mp he with rfl | he2
  · exact optLE_some_le hxy hy
  · exact hl e he2

/-- Updating the best point with a freshly evaluated point keeps the best
error equal to the best point's re-measured error. -/
theorem update_tracks {o : Oracle} {dc : Coordinates} {dm : ℚ} (em : ℚ) (be : Option ℚ)
    (bp pt : Coordinates)
    (hT : ∀ b, be = some b → errorOf o dc dm bp = b)
    (hpt : errorOf o dc dm pt = em) :
    ∀ b, (if improves em be then some em else be) = some b →
      errorOf o dc dm (if improves em be then pt else bp) = b := by
  by_cases h : improves em be = true
  · rw [if_pos h, if_pos h]
    intro b hb
    rw [hpt]
    exact Option.some.inj hb
  · rw [if_neg h, if_neg h]
    exact hT

/-- The evaluated error at a test distance is exactly the error of the
evaluated point as re-measured through the oracle. -/
theorem evalAt_errorOf (o : Oracle) (fc : Coordinates) (tb : ℚ) (dc : Coordinates)
    (dm td : ℚ) :
    errorOf o dc dm (evalAt o fc tb dc td).point = |(evalAt o fc tb dc td).t2dm - dm| := rfl

/-- Invariant of the current revision's bisection loop: the final best error
is the error of the final best point, it never exceeds the incoming best
error, and it is at most the error of every point evaluated during the
loop. -/
theorem solverLoop_best (o : Oracle) (fc : Coordinates) (tb : ℚ) (dc : Coordinates)
    (dm : ℚ) :
    ∀ (n : ℕ) (mn mx : ℚ) (be : Option ℚ) (bp : Coordinates),
      (∀ b, be = some b → errorOf o dc dm bp = b) →
      (∀ b, (solverLoop o fc tb dc dm n mn mx be bp).best_err = some b →
        errorOf o dc dm (solverLoop o fc tb dc dm n mn mx be bp).point = b)
      ∧ optLE (solverLoop o fc tb dc dm n mn mx be bp).best_err be
      ∧ (∀ e ∈ (solverLoop o fc tb dc dm n mn mx be bp).errs,
          ∃ b, (solverLoop o fc tb dc dm n mn mx be bp).best_err = some b ∧ b ≤ e) := by
  intro n
  induction n with
  | zero =>
    intro mn mx be bp hT
    rw [solverLoop_zero]
    exact ⟨hT, optLE_refl be, by simp⟩
  | succ n ih =>
    intro mn mx be bp hT
    rw [solverLoop_succ]
    simp only []
    set td := (mn + mx) / 2 with htd
    set em := |(evalAt o fc tb dc td).t2dm - dm| with hem
    have hup := update_best em be
    have hT2 : ∀ b, (if improves em be then some em else be) = some b →
        errorOf o dc dm (if improves em be then (evalAt o fc tb dc td).point else bp) = b := by
      by_cases h : improves em be
      · simp only [h, if_pos]
        intro b hb
        rw [evalAt_errorOf]
        rw [← hem]
        exact (Option.some_injective ℚ hb).symm ▸ rfl
      · simp only [h, if_neg, Bool.false_eq_true, not_false_eq_true]
        exact hT
    by_cases htol : em < DISTANCE_TOLERANCE_M
    · rw [if_pos htol]
      refine ⟨hT2, hup.1, ?_⟩
      intro e he
      rcases List.mem_singleton.mp he with rfl
      exact hup.2
    · rw [if_neg htol]
      by_cases hw : (if (evalAt o fc tb dc td).t2dm > dm then td else mx) -
          (if (evalAt o fc tb dc td).t2dm > dm then mn else td) < 1/1000000
      · rw [if_pos hw]
        refine ⟨hT2, hup.1, ?_⟩
        intro e he
        rcases List.mem_singleton.mp he with rfl
        exact hup.2
      · rw [if_neg hw]
        obtain ⟨hr1, hr2, hr3⟩ := ih (if (evalAt o fc tb dc td).t2dm > dm then mn else td)
          (if (evalAt o fc tb dc td).t2dm > dm then td else mx)
          (if improves em be then some em else be)
          (if improves em be then (evalAt o fc tb dc td).point else bp) hT2
        exact ⟨hr1, optLE_trans hr2 hup.1, best_cons hr2 hup.2 hr3⟩

/-- The loop cannot iterate more often than its fuel. -/
theorem solverLoop_iters_le (o : Oracle) (fc : Coordinates) (tb : ℚ) (dc : Coordinates)
    (dm : ℚ) :
    ∀ (n : ℕ) (mn mx : ℚ) (be : Option ℚ) (bp : Coordinates),
      (solverLoop o fc tb dc dm n mn mx be bp).iters ≤ n := by
  intro n
  induction n with
  | zero => intro mn mx be bp; rw [solverLoop_zero]
  | succ n ih =>
    intro mn mx be bp
    rw [solverLoop_succ]
    simp only []
    by_cases htol : |(evalAt o fc tb dc ((mn + mx) / 2)).t2dm - dm| < DISTANCE_TOLERANCE_M
    · rw [if_pos htol]
      exact Nat.succ_le_succ (Nat.zero_le n)
    · rw [if_neg htol]
      by_cases hw : (if (evalAt o fc tb dc ((mn + mx) / 2)).t2dm > dm then (mn + mx) / 2 else mx) -
          (if (evalAt o fc tb dc ((mn + mx) / 2)).t2dm > dm then mn else (mn + mx) / 2) < 1/1000000
      · rw [if_pos hw]
        exact Nat.succ_le_succ (Nat.zero_le n)
      · rw [if_neg hw]
        exact Nat.succ_le_succ (ih _ _ _ _)

/-- Invariant of the earlier revision's loop: the final best error is the
error of the final best point, it never exceeds the incoming best error,
and it is at most the error of every tracked evaluation (midpoints and
secant points; the stagnation branch's endpoint probes are not tracked by
the code). -/
theorem p0Loop_tracked_best (o : Oracle) (fc : Coordinates) (tb : ℚ) (dc : Coordinates)
    (dm : ℚ) :
    ∀ (n : ℕ) (mn mx : ℚ) (be : Option ℚ) (bp : Coordinates) (prev : Option ℚ)
      (counter : ℕ),
      (∀ b, be = some b → errorOf o dc dm bp = b) →
      (∀ b, (p0Loop o fc tb dc dm n mn mx be bp prev counter).best_err = some b →
        errorOf o dc dm (p0Loop o fc tb dc dm n mn mx be bp prev counter).point = b)
      ∧ optLE (p0Loop o fc tb dc dm n mn mx be bp prev counter).best_err be
      ∧ (∀ e ∈ (p0Loop o fc tb dc dm n mn mx be bp prev counter).tracked,
          ∃ b, (p0Loop o fc tb dc dm n mn mx be bp prev counter).best_err = some b ∧ b ≤ e) := by
  intro n
  induction n with
  | zero =>
    intro mn mx be bp prev counter hT
    rw [p0Loop_zero]
    exact ⟨hT, optLE_refl be, by simp⟩
  | succ n ih =>
    intro mn mx be bp prev counter hT
    rw [p0Loop_succ]
    simp only []
    set pt := (evalAt o fc tb dc ((mn + mx) / 2)).point with hpt
    set em := |(evalAt o fc tb dc ((mn + mx) / 2)).t2dm - dm| with hem
    set be2 := if improves em be then some em else be with hbe2
    set bp2 := if improves em be then pt else bp with hbp2
    have hT2 : ∀ b, be2 = some b → errorOf o dc dm bp2 = b :=
      update_tracks em be bp pt hT rfl
    have hup : optLE be2 be ∧ ∃ b, be2 = some b ∧ b ≤ em := update_best em be
    by_cases htol : em < DISTANCE_TOLERANCE_M
    · rw [if_pos htol]
      refine ⟨hT2, hup.1, ?_⟩
      intro e he
      rcases List.mem_singleton.mp he with rfl
      exact hup.2
    · rw [if_neg htol]
      by_cases hfire : (if stagnant prev em then counter + 1 else 0) > 5
      · rw [if_pos hfire]
        set e1 := (evalAt o fc tb dc mn).t2dm - dm with he1
        set e2 := (evalAt o fc tb dc mx).t2dm - dm with he2x
        by_cases hne : e1 ≠ e2
        · rw [if_pos hne]
          set td2 := mn + (mx - mn) * (0 - e1) / (e2 - e1) with htd2
          set pt3 := (evalAt o fc tb dc td2).point with hpt3
          set em2 := |(evalAt o fc tb dc td2).t2dm - dm| with hem2
          set be3 := if improves em2 be2 then some em2 else be2 with hbe3
          set bp3 := if improves em2 be2 then pt3 else bp2 with hbp3
          have hT3 : ∀ b, be3 = some b → errorOf o dc dm bp3 = b :=
            update_tracks em2 be2 bp2 pt3 hT2 rfl
          have hup2 : optLE be3 be2 ∧ ∃ b, be3 = some b ∧ b ≤ em2 := update_best em2 be2
          by_cases htol2 : em2 < DISTANCE_TOLERANCE_M
          · rw [if_pos htol2]
            refine ⟨hT3, optLE_trans hup2.1 hup.1, ?_⟩
            intro e he
            rcases List.mem_cons.mp he with rfl | he2
            · exact optLE_some_le hup2.1 hup.2
            · rcases List.mem_singleton.mp he2 with rfl
              exact hup2.2
          · rw [if_neg htol2]
            set b := stagnationBounds mn mx td2 (evalAt o fc tb dc ((mn + mx) / 2)).t2dm dm
              with hbnd
            obtain ⟨hr1, hr2, hr3⟩ := ih b.1 b.2 be3 bp3 prev 0 hT3
            exact ⟨hr1, optLE_trans hr2 (optLE_trans hup2.1 hup.1),
              best_head (optLE_trans hr2 hup2.1) hup.2 (best_head hr2 hup2.2 hr3)⟩
        · rw [if_neg hne]
          set b := stagnationBounds mn mx ((mn + mx) / 2)
            (evalAt o fc tb dc ((mn + mx) / 2)).t2dm dm with hbnd
          obtain ⟨hr1, hr2, hr3⟩ := ih b.1 b.2 be2 bp2 prev 0 hT2
          exact ⟨hr1, optLE_trans hr2 hup.1, best_head hr2 hup.2 hr3⟩
      · rw [if_neg hfire]
        set mn2 := if (evalAt o fc tb dc ((mn + mx) / 2)).t2dm > dm
          then mn else (mn + mx) / 2 with hmn2
        set mx2 := if (evalAt o fc tb dc ((mn + mx) / 2)).t2dm > dm
          then (mn + mx) / 2 else mx with hmx2
        by_cases hw : mx2 - mn2 < 1/1000000
        · rw [if_pos hw]
          refine ⟨hT2, hup.1, ?_⟩
          intro e he
          rcases List.mem_singleton.mp he with rfl
          exact hup.2
        · rw [if_neg hw]
          obtain ⟨hr1, hr2, hr3⟩ := ih mn2 mx2 be2 bp2 (some em)
            (if stagnant prev em then counter + 1 else 0) hT2
          exact ⟨hr1, optLE_trans hr2 hup.1, best_head hr2 hup.2 hr3⟩

/-- The earlier revision's loop cannot iterate more often than its fuel. -/
theorem p0Loop_iters_le (o : Oracle) (fc : Coordinates) (tb : ℚ) (dc : Coordinates)
    (dm : ℚ) :
    ∀ (n : ℕ) (mn mx : ℚ) (be : Option ℚ) (bp : Coordinates) (prev : Option ℚ)
      (counter : ℕ),
      (p0Loop o fc tb dc dm n mn mx be bp prev counter).iters ≤ n := by
  intro n
  induction n with
  | zero =>
    intro mn mx be bp prev counter
    rw [p0Loop_zero]
  | succ n ih =>
    intro mn mx be bp prev counter
    rw [p0Loop_succ]
    simp only []
    by_cases htol : |(evalAt o fc tb dc ((mn + mx) / 2)).t2dm - dm| < DISTANCE_TOLERANCE_M
    · rw [if_pos htol]
      exact Nat.succ_le_succ (Nat.zero_le n)
    · rw [if_neg htol]
      by_cases hfire : (if stagnant prev |(evalAt o fc tb dc ((mn + mx) / 2)).t2dm - dm|
          then counter + 1 else 0) > 5
      · rw [if_pos hfire]
        by_cases hne : (evalAt o fc tb dc mn).t2dm - dm ≠ (evalAt o fc tb dc mx).t2dm - dm
        · rw [if_pos hne]
          by_cases htol2 : |(evalAt o fc tb dc (mn + (mx - mn) *
              (0 - ((evalAt o fc tb dc mn).t2dm - dm)) /
              ((evalAt o fc tb dc mx).t2dm - dm -
                ((evalAt o fc tb dc mn).t2dm - dm)))).t2dm - dm| < DISTANCE_TOLERANCE_M
          · rw [if_pos htol2]
            exact Nat.succ_le_succ (Nat.zero_le n)
          · rw [if_neg htol2]
            exact Nat.succ_le_succ (ih _ _ _ _ _ _)
        · rw [if_neg hne]
          exact Nat.succ_le_succ (ih _ _ _ _ _ _)
      · rw [if_neg hfire]
        by_cases hw : (if (evalAt o fc tb dc ((mn + mx) / 2)).t2dm > dm
              then (mn + mx) / 2 else mx) -
            (if (evalAt o fc tb dc ((mn + mx) / 2)).t2dm > dm then mn else (mn + mx) / 2)
            < 1/1000000
        · rw [if_pos hw]
          exact Nat.succ_le_succ (Nat.zero_le n)
        · rw [if_neg hw]
          exact Nat.succ_le_succ (ih _ _ _ _ _ _)

set_option maxHeartbeats 4000000 in
/-- C1 counterexample (earlier revision): with `oracleProbe`, the firing
stagnation branch evaluates the bracket endpoint `min = 0` through the
oracle with absolute error `1/2` — recorded in `errs` — but never compares
it to `best_approx_distance`; the run ends with a returned point whose
re-measured error is `9/10 > 1/2`, so the solver returns a point strictly
worse than a point it evaluated internally. -/
theorem best_point_probe_counterexample :
    (1/2 : ℚ) ∈
      (find_radial_distance_intersection_v0 oracleProbe ⟨0, 0⟩ 90 ⟨0, 0⟩ (1/25)).errs
    ∧ errorOf oracleProbe ⟨0, 0⟩ (nm_to_meters (1/25))
        (find_radial_distance_intersection_v0 oracleProbe ⟨0, 0⟩ 90 ⟨0, 0⟩ (1/25)).point
        = 9/10
    ∧ ¬((9:ℚ)/10 ≤ 1/2) := by
  refine ⟨?_, ?_, by norm_num⟩
  · norm_num [find_radial_distance_intersection_v0, searchRange_v0, oracleProbe,
      probeDist, evalAt, improves, stagnant, stagnationBounds, nm_to_meters,
      meters_to_nm, METERS_PER_NM, MAX_ITERATIONS, DISTANCE_TOLERANCE_M,
      p0Loop_stop_tol, p0Loop_cont, p0Loop_fire_cont, abs_of_nonneg, abs_of_nonpos,
      List.mem_cons]
  · norm_num [find_radial_distance_intersection_v0, searchRange_v0, oracleProbe,
      probeDist, evalAt, improves, stagnant, stagnationBounds, errorOf, nm_to_meters,
      meters_to_nm, METERS_PER_NM, MAX_ITERATIONS, DISTANCE_TOLERANCE_M,
      p0Loop_stop_tol, p0Loop_cont, p0Loop_fire_cont, abs_of_nonneg, abs_of_nonpos]

/-- C1 (amended): the current revision's solver returns the best point seen
among all internally evaluated points; the earlier revision tracks only the
midpoint and secant-correction evaluations (not the stagnation branch's
endpoint probes), and its returned point is best among those tracked
evaluations. -/
theorem solver_returns_best_point :
    (∀ (o : Oracle) (fc : Coordinates) (tb : ℚ) (dc : Coordinates) (t_nm : ℚ),
      ∀ e ∈ (find_radial_distance_intersection o fc tb dc t_nm).errs,
        errorOf o dc (nm_to_meters t_nm)
          (find_radial_distance_intersection o fc tb dc t_nm).point ≤ e)
    ∧ (∀ (o : Oracle) (fc : Coordinates) (tb : ℚ) (dc : Coordinates) (t_nm : ℚ),
      ∀ e ∈ (find_radial_distance_intersection_v0 o fc tb dc t_nm).tracked,
        errorOf o dc (nm_to_meters t_nm)
          (find_radial_distance_intersection_v0 o fc tb dc t_nm).point ≤ e) := by
  constructor
  · intro o fc tb dc t_nm e he
    have h := solverLoop_best o fc tb dc (nm_to_meters t_nm) MAX_ITERATIONS
      (searchRange (meters_to_nm (o.inverse fc.lat fc.lon dc.lat dc.lon).s12) t_nm).1
      (searchRange (meters_to_nm (o.inverse fc.lat fc.lon dc.lat dc.lon).s12) t_nm).2
      none fc (by intro b hb; cases hb)
    rcases h.2.2 e he with ⟨b, hb, hbe⟩
    rw [show (find_radial_distance_intersection o fc tb dc t_nm) =
      solverLoop o fc tb dc (nm_to_meters t_nm) MAX_ITERATIONS
        (searchRange (meters_to_nm (o.inverse fc.lat fc.lon dc.lat dc.lon).s12) t_nm).1
        (searchRange (meters_to_nm (o.inverse fc.lat fc.lon dc.lat dc.lon).s12) t_nm).2
        none fc from rfl]
    rw [h.1 b hb]
    exact hbe
  · intro o fc tb dc t_nm e he
    have h := p0Loop_tracked_best o fc tb dc (nm_to_meters t_nm) MAX_ITERATIONS
      (searchRange_v0 (meters_to_nm (o.inverse fc.lat fc.lon dc.lat dc.lon).s12) t_nm).1
      (searchRange_v0 (meters_to_nm (o.inverse fc.lat fc.lon dc.lat dc.lon).s12) t_nm).2
      none ⟨0, 0⟩ none 0 (by intro b hb; cases hb)
    rcases h.2.2 e he with ⟨b, hb, hbe⟩
    rw [show (find_radial_distance_intersection_v0 o fc tb dc t_nm) =
      p0Loop o fc tb dc (nm_to_meters t_nm) MAX_ITERATIONS
        (searchRange_v0 (meters_to_nm (o.inverse fc.lat fc.lon dc.lat dc.lon).s12) t_nm).1
        (searchRange_v0 (meters_to_nm (o.inverse fc.lat fc.lon dc.lat dc.lon).s12) t_nm).2
        none ⟨0, 0⟩ none 0 from rfl]
    rw [h.1 b hb]
    exact hbe

/-- C1 amended, witnessed with an oracle whose first midpoint evaluation
has zero error, in both revisions: the evaluated error `0` is in the
evaluation list and the returned point's re-measured error is at most `0`. -/
theorem solver_returns_best_point_witness :
    (0 ∈ (find_radial_distance_intersection oracleExact ⟨0, 0⟩ 90 ⟨0, 0⟩ 10).errs
     ∧ errorOf oracleExact ⟨0, 0⟩ (nm_to_meters 10)
        (find_radial_distance_intersection oracleExact ⟨0, 0⟩ 90 ⟨0, 0⟩ 10).point ≤ 0)
    ∧ (0 ∈ (find_radial_distance_intersection_v0 oracleExact ⟨0, 0⟩ 90 ⟨0, 0⟩ 10).tracked
     ∧ errorOf oracleExact ⟨0, 0⟩ (nm_to_meters 10)
        (find_radial_distance_intersection_v0 oracleExact ⟨0, 0⟩ 90 ⟨0, 0⟩ 10).point ≤ 0) := by
  have hmem : 0 ∈ (find_radial_distance_intersection oracleExact ⟨0, 0⟩ 90 ⟨0, 0⟩ 10).errs := by
    norm_num [find_radial_distance_intersection, searchRange, oracleExact, evalAt,
      improves, nm_to_meters, meters_to_nm, METERS_PER_NM, MAX_ITERATIONS,
      DISTANCE_TOLERANCE_M, solverLoop_stop_tol]
  have hmem2 : 0 ∈
      (find_radial_distance_intersection_v0 oracleExact ⟨0, 0⟩ 90 ⟨0, 0⟩ 10).tracked := by
    norm_num [find_radial_distance_intersection_v0, searchRange_v0, oracleExact, evalAt,
      improves, nm_to_meters, meters_to_nm, METERS_PER_NM, MAX_ITERATIONS,
      DISTANCE_TOLERANCE_M, p0Loop_stop_tol]
  exact ⟨⟨hmem, solver_returns_best_point.1 oracleExact ⟨0, 0⟩ 90 ⟨0, 0⟩ 10 0 hmem⟩,
    ⟨hmem2, solver_returns_best_point.2 oracleExact ⟨0, 0⟩ 90 ⟨0, 0⟩ 10 0 hmem2⟩⟩

/-- C3 counterexample (earlier revision): at a stagnating state with
bracket `[0, 1/2000]`, the firing stagnation branch narrows the bracket to
`(0, 1/4002000)` — the second conjunct computes exactly the bounds update
the loop performs, whose width is below `1e-6` NM — yet the loop runs a
second iteration (evaluating another midpoint) instead of stopping, because
the width check is skipped on the fire path. -/
theorem termination_width_counterexample :
    (p0Loop oracleFireWidth ⟨0, 0⟩ 90 ⟨0, 0⟩ 1852 MAX_ITERATIONS 0 (1/2000) none ⟨0, 0⟩
        (some (41/20)) 5).iters = 2
    ∧ stagnationBounds 0 (1/2000) (1/4002000) 1854 1852 = (0, 1/4002000)
    ∧ ((1/4002000 : ℚ) - 0 < 1/1000000) := by
  refine ⟨?_, by norm_num [stagnationBounds], by norm_num⟩
  norm_num [oracleFireWidth, fireWidthDist, evalAt, improves, stagnant,
    stagnationBounds, nm_to_meters, meters_to_nm, METERS_PER_NM, MAX_ITERATIONS,
    DISTANCE_TOLERANCE_M, p0Loop_stop_tol, p0Loop_cont, p0Loop_fire_cont,
    abs_of_nonneg, abs_of_nonpos]

/-- C3 (amended): both revisions' loops run at most 200 iterations and stop
at once when the evaluated midpoint error is below the 1-meter tolerance;
the current revision also stops at once when the updated bracket width
drops below `1e-6` NM, while the earlier revision performs that width check
only on ordinary bisection iterations (a firing stagnation iteration skips
it). -/
theorem solver_termination_bounds :
    (∀ (o : Oracle) (fc : Coordinates) (tb : ℚ) (dc : Coordinates) (t : ℚ),
      (find_radial_distance_intersection o fc tb dc t).iters ≤ 200)
    ∧ (∀ (o : Oracle) (fc : Coordinates) (tb : ℚ) (dc : Coordinates)
        (dm : ℚ) (n : ℕ) (mn mx : ℚ) (be : Option ℚ) (bp : Coordinates),
      |(evalAt o fc tb dc ((mn + mx) / 2)).t2dm - dm| < DISTANCE_TOLERANCE_M →
      (solverLoop o fc tb dc dm (n + 1) mn mx be bp).iters = 1)
    ∧ (∀ (o : Oracle) (fc : Coordinates) (tb : ℚ) (dc : Coordinates)
        (dm : ℚ) (n : ℕ) (mn mx : ℚ) (be : Option ℚ) (bp : Coordinates),
      ¬(|(evalAt o fc tb dc ((mn + mx) / 2)).t2dm - dm| < DISTANCE_TOLERANCE_M) →
      (if (evalAt o fc tb dc ((mn + mx) / 2)).t2dm > dm then (mn + mx) / 2 else mx) -
        (if (evalAt o fc tb dc ((mn + mx) / 2)).t2dm > dm then mn else (mn + mx) / 2)
        < 1/1000000 →
      (solverLoop o fc tb dc dm (n + 1) mn mx be bp).iters = 1)
    ∧ (∀ (o : Oracle) (fc : Coordinates) (tb : ℚ) (dc : Coordinates) (t : ℚ),
      (find_radial_distance_intersection_v0 o fc tb dc t).iters ≤ 200)
    ∧ (∀ (o : Oracle) (fc : Coordinates) (tb : ℚ) (dc : Coordinates)
        (dm : ℚ) (n : ℕ) (mn mx : ℚ) (be : Option ℚ) (bp : Coordinates)
        (prev : Option ℚ) (counter : ℕ),
      |(evalAt o fc tb dc ((mn + mx) / 2)).t2dm - dm| < DISTANCE_TOLERANCE_M →
      (p0Loop o fc tb dc dm (n + 1) mn mx be bp prev counter).iters = 1)
    ∧ (∀ (o : Oracle) (fc : Coordinates) (tb : ℚ) (dc : Coordinates)
        (dm : ℚ) (n : ℕ) (mn mx : ℚ) (be : Option ℚ) (bp : Coordinates)
        (prev : Option ℚ) (counter : ℕ),
      ¬(|(evalAt o fc tb dc ((mn + mx) / 2)).t2dm - dm| < DISTANCE_TOLERANCE_M) →
      ¬((if stagnant prev |(evalAt o fc tb dc ((mn + mx) / 2)).t2dm - dm|
          then counter + 1 else 0) > 5) →
      (if (evalAt o fc tb dc ((mn + mx) / 2)).t2dm > dm then (mn + mx) / 2 else mx) -
        (if (evalAt o fc tb dc ((mn + mx) / 2)).t2dm > dm then mn else (mn + mx) / 2)
        < 1/1000000 →
      (p0Loop o fc tb dc dm (n + 1) mn mx be bp prev counter).iters = 1) := by
  refine ⟨?_, ?_, ?_, ?_, ?_, ?_⟩
  · intro o fc tb dc t
    exact solverLoop_iters_le o fc tb dc (nm_to_meters t) MAX_ITERATIONS _ _ _ _
  · intro o fc tb dc dm n mn mx be bp htol
    rw [solverLoop_succ]
    simp only []
    rw [if_pos htol]
  · intro o fc tb dc dm n mn mx be bp htol hw
    rw [solverLoop_succ]
    simp only []
    rw [if_neg htol, if_pos hw]
  · intro o fc tb dc t
    exact p0Loop_iters_le o fc tb dc (nm_to_meters t) MAX_ITERATIONS _ _ _ _ _ _
  · intro o fc tb dc dm n mn mx be bp prev counter htol
    rw [p0Loop_succ]
    simp only []
    rw [if_pos htol]
  · intro o fc tb dc dm n mn mx be bp prev counter htol hfire hw
    rw [p0Loop_succ]
    simp only []
    rw [if_neg htol, if_neg hfire, if_pos hw]

/-- C3 amended, witnessed: runs that stop in one iteration (error `0`), the
tolerance stop, and the width stop, at concrete inputs in both revisions. -/
theorem solver_termination_bounds_witness :
    (find_radial_distance_intersection oracleExact ⟨0, 0⟩ 90 ⟨0, 0⟩ 10).iters ≤ 200
    ∧ (solverLoop oracleExact ⟨0, 0⟩ 90 ⟨0, 0⟩ 18520 1 0 21 none ⟨0, 0⟩).iters = 1
    ∧ (solverLoop oracleFlat ⟨0, 0⟩ 90 ⟨0, 0⟩ 18520 1 0 (1/10000000) none ⟨0, 0⟩).iters = 1
    ∧ (find_radial_distance_intersection_v0 oracleExact ⟨0, 0⟩ 90 ⟨0, 0⟩ 10).iters ≤ 200
    ∧ (p0Loop oracleExact ⟨0, 0⟩ 90 ⟨0, 0⟩ 18520 1 0 21 none ⟨0, 0⟩ none 0).iters = 1
    ∧ (p0Loop oracleFlat ⟨0, 0⟩ 90 ⟨0, 0⟩ 18520 1 0 (1/10000000) none ⟨0, 0⟩
        none 0).iters = 1 := by
  refine ⟨solver_termination_bounds.1 oracleExact ⟨0, 0⟩ 90 ⟨0, 0⟩ 10, ?_, ?_,
    solver_termination_bounds.2.2.2.1 oracleExact ⟨0, 0⟩ 90 ⟨0, 0⟩ 10, ?_, ?_⟩
  · exact solver_termination_bounds.2.1 oracleExact ⟨0, 0⟩ 90 ⟨0, 0⟩ 18520 0 0 21 none ⟨0, 0⟩
      (by norm_num [evalAt, oracleExact, DISTANCE_TOLERANCE_M])
  · exact solver_termination_bounds.2.2.1 oracleFlat ⟨0, 0⟩ 90 ⟨0, 0⟩ 18520 0 0 (1/10000000)
      none ⟨0, 0⟩
      (by norm_num [evalAt, oracleFlat, DISTANCE_TOLERANCE_M, abs_of_nonneg])
      (by norm_num [evalAt, oracleFlat])
  · exact solver_termination_bounds.2.2.2.2.1 oracleExact ⟨0, 0⟩ 90 ⟨0, 0⟩ 18520 0 0 21
      none ⟨0, 0⟩ none 0
      (by norm_num [evalAt, oracleExact, DISTANCE_TOLERANCE_M])
  · exact solver_termination_bounds.2.2.2.2.2 oracleFlat ⟨0, 0⟩ 90 ⟨0, 0⟩ 18520 0 0
      (1/10000000) none ⟨0, 0⟩ none 0
      (by norm_num [evalAt, oracleFlat, DISTANCE_TOLERANCE_M, abs_of_nonneg])
      (by norm_num [stagnant])
      (by norm_num [evalAt, oracleFlat])

/-! ## C5: the stagnation-triggered secant correction -/

/-- Every trace entry of the earlier revision's loop records a fired
stagnation correction exactly when the stagnation counter (after this
iteration's update) exceeds `5`. -/
theorem p0Loop_fired_iff (o : Oracle) (fc : Coordinates) (tb : ℚ) (dc : Coordinates)
    (dm : ℚ) :
    ∀ (n : ℕ) (mn mx : ℚ) (be : Option ℚ) (bp : Coordinates) (prev : Option ℚ)
      (counter : ℕ),
      ∀ p ∈ (p0Loop o fc tb dc dm n mn mx be bp prev counter).trace,
        p.2 = true ↔ 5 < p.1 := by
  intro n
  induction n with
  | zero =>
    intro mn mx be bp prev counter p hp
    rw [p0Loop_zero] at hp
    cases hp
  | succ n ih =>
    intro mn mx be bp prev counter p hp
    rw [p0Loop_succ] at hp
    simp only [] at hp
    by_cases htol : |(evalAt o fc tb dc ((mn + mx) / 2)).t2dm - dm| < DISTANCE_TOLERANCE_M
    · rw [if_pos htol] at hp
      cases hp
    · rw [if_neg htol] at hp
      by_cases hfire : (if stagnant prev |(evalAt o fc tb dc ((mn + mx) / 2)).t2dm - dm|
          then counter + 1 else 0) > 5
      · rw [if_pos hfire] at hp
        by_cases hne : (evalAt o fc tb dc mn).t2dm - dm ≠ (evalAt o fc tb dc mx).t2dm - dm
        · rw [if_pos hne] at hp
          by_cases htol2 : |(evalAt o fc tb dc (mn + (mx - mn) *
              (0 - ((evalAt o fc tb dc mn).t2dm - dm)) /
              ((evalAt o fc tb dc mx).t2dm - dm - ((evalAt o fc tb dc mn).t2dm - dm)))).t2dm
              - dm| < DISTANCE_TOLERANCE_M
          · rw [if_pos htol2] at hp
            rcases List.mem_singleton.mp hp with rfl
            simpa using hfire
          · rw [if_neg htol2] at hp
            rcases List.mem_cons.mp hp with rfl | hp2
            · simpa using hfire
            · exact ih _ _ _ _ _ _ p hp2
        · rw [if_neg hne] at hp
          rcases List.mem_cons.mp hp with rfl | hp2
          · simpa using hfire
          · exact ih _ _ _ _ _ _ p hp2
      · rw [if_neg hfire] at hp
        by_cases hw : (if (evalAt o fc tb dc ((mn + mx) / 2)).t2dm > dm
              then (mn + mx) / 2 else mx) -
            (if (evalAt o fc tb dc ((mn + mx) / 2)).t2dm > dm then mn else (mn + mx) / 2)
            < 1/1000000
        · rw [if_pos hw] at hp
          rcases List.mem_singleton.mp hp with rfl
          simpa using hfire
        · rw [if_neg hw] at hp
          rcases List.mem_cons.mp hp with rfl | hp2
          · simpa using hfire
          · exact ih _ _ _ _ _ _ p hp2

/-- C5 counterexample: with `oracleStagnant` and target distance `1/25` NM,
the earlier revision's solver sees five consecutive iterations whose error
improves by less than one-tenth of the tolerance (the counter reaches `5`,
recorded as `(5, false)`), yet no stagnation correction ever fires during
the run — refuting the claim that it fires after 5 consecutive stagnant
iterations. -/
theorem stagnation_counterexample :
    (find_radial_distance_intersection_v0 oracleStagnant ⟨0, 0⟩ 90 ⟨0, 0⟩ (1/25)).trace =
      [(0, false), (1, false), (2, false), (3, false), (4, false), (5, false)]
    ∧ ∀ p ∈ [((0:ℕ), false), ((1:ℕ), false), ((2:ℕ), false), ((3:ℕ), false),
        ((4:ℕ), false), ((5:ℕ), false)], p.2 = false := by
  constructor
  · norm_num [find_radial_distance_intersection_v0, searchRange_v0, oracleStagnant,
      stagnationDist, evalAt, improves, stagnant, nm_to_meters, meters_to_nm,
      METERS_PER_NM, MAX_ITERATIONS, DISTANCE_TOLERANCE_M, p0Loop_stop_tol, p0Loop_cont,
      abs_of_nonneg, abs_of_nonpos]
  · decide

/-- C5 (amended): the stagnation correction fires exactly when the error has
improved by less than one-tenth of the tolerance for more than 5 consecutive
iterations (the counter recorded in the trace exceeds `5`, i.e. on the 6th);
when it fires, the bracket update follows `stagnationBounds`: narrow toward
the corrected point when it lies strictly inside the bracket, otherwise
reassign `min` to `(min+max)/3` and then `max` to `2*(min'+max)/3` with the
already-updated `min'`; and the secant step is the linear-interpolation root
of the line through `(min, error(min))` and `(max, error(max))`. -/
theorem stagnation_correction_amended :
    (∀ (o : Oracle) (fc : Coordinates) (tb : ℚ) (dc : Coordinates) (dm : ℚ)
        (n : ℕ) (mn mx : ℚ) (be : Option ℚ) (bp : Coordinates) (prev : Option ℚ)
        (counter : ℕ),
      ∀ p ∈ (p0Loop o fc tb dc dm n mn mx be bp prev counter).trace,
        p.2 = true ↔ 5 < p.1)
    ∧ (∀ mn mx td t2dm dm : ℚ,
        stagnationBounds mn mx td t2dm dm = stagnationBoundsSpec mn mx td t2dm dm)
    ∧ (∀ mn mx e1 e2 : ℚ,
        mn + (mx - mn) * (0 - e1) / (e2 - e1) = mn - e1 * (mx - mn) / (e2 - e1)) := by
  refine ⟨fun o fc tb dc dm => p0Loop_fired_iff o fc tb dc dm, fun _ _ _ _ _ => rfl, ?_⟩
  intro mn mx e1 e2
  ring

/-- C5 amended, witnessed on the concrete stagnating run: the entry
`(5, false)` is in the trace, and the theorem instantiates to
`false = true ↔ 5 < 5` there; the bracket and secant formulas instantiate at
concrete values. -/
theorem stagnation_correction_amended_witness :
    ((5, false) ∈
      (find_radial_distance_intersection_v0 oracleStagnant ⟨0, 0⟩ 90 ⟨0, 0⟩ (1/25)).trace)
    ∧ ((false = true) ↔ (5 < 5))
    ∧ stagnationBounds 0 9 20 3 4 = stagnationBoundsSpec 0 9 20 3 4
    ∧ (0 : ℚ) + (9 - 0) * (0 - 2) / (5 - 2) = 0 - 2 * (9 - 0) / (5 - 2) := by
  have hmem : (5, false) ∈
      (find_radial_distance_intersection_v0 oracleStagnant ⟨0, 0⟩ 90 ⟨0, 0⟩ (1/25)).trace := by
    norm_num [find_radial_distance_intersection_v0, searchRange_v0, oracleStagnant,
      stagnationDist, evalAt, improves, stagnant, nm_to_meters, meters_to_nm,
      METERS_PER_NM, MAX_ITERATIONS, DISTANCE_TOLERANCE_M, p0Loop_stop_tol, p0Loop_cont,
      abs_of_nonneg, abs_of_nonpos, List.mem_cons]
  refine ⟨hmem, ?_, stagnation_correction_amended.2.1 0 9 20 3 4,
    stagnation_correction_amended.2.2 0 9 2 5⟩
  exact stagnation_correction_amended.1 oracleStagnant ⟨0, 0⟩ 90 ⟨0, 0⟩
    (nm_to_meters (1/25)) MAX_ITERATIONS
    (searchRange_v0 (meters_to_nm ((oracleStagnant.inverse 0 0 0 0).s12)) (1/25)).1
    (searchRange_v0 (meters_to_nm ((oracleStagnant.inverse 0 0 0 0).s12)) (1/25)).2
    none ⟨0, 0⟩ none 0 (5, false) hmem

end VorFix
